import Mathlib

/-
Verification of the FoundationDB-backed job queue (apps/api/src/services/fdb-queue.ts)
and the team concurrency semaphore (apps/api/src/services/worker/team-semaphore.ts).

The queue stores all data in a single ordered key-value store (FoundationDB).
Keys are built with the FDB tuple encoding (fdb.tuple.pack).  We model a packed
tuple key as a list of typed elements and model the byte order of packed keys
by an element-wise lexicographic order in which the element type codes of the
tuple encoding decide comparisons across types:

  byte strings  have type code 0x01,
  text strings  have type code 0x02,
  integers      have type codes 0x0b..0x1d (doubles 0x21),

so a byte-string element sorts strictly below every text-string element and
every number element.  Within one type, the tuple encoding is order-preserving
(byte-wise for byte strings, code-point-wise for text, numerically for
integers), and a packed tuple is a strict byte prefix of any packed extension
of it, hence sorts strictly below it.  keyLt below implements exactly this
order.  None of the byte strings used by the queue contain a 0x00 byte, so the
0x00 escaping of the encoding never affects comparisons.
-/

namespace FdbQueue

/-- Element of an FDB tuple key: a byte string, a text string, or an integer
(JavaScript numbers used by the queue are safe integers). -/
inductive Elem where
  | bytes (b : List Nat)
  | str (s : String)
  | int (n : Int)
deriving DecidableEq

/-- Packed tuple key, as its list of elements. -/
abbrev TupleKey := List Elem

/-- Byte-wise lexicographic order on byte strings. -/
def bytesLt : List Nat → List Nat → Bool
  | _, [] => false
  | [], _ :: _ => true
  | a :: as, b :: bs => if a < b then true else if b < a then false else bytesLt as bs

/-- Code-point-wise lexicographic order on character lists. -/
def charListLt : List Char → List Char → Bool
  | _, [] => false
  | [], _ :: _ => true
  | a :: as, b :: bs =>
    if a.toNat < b.toNat then true
    else if b.toNat < a.toNat then false
    else charListLt as bs

/-- Code-point-wise lexicographic order on strings, the order of their UTF-8
encodings. -/
def strLt (a b : String) : Bool := charListLt a.data b.data

/-- Order of packed tuple elements: the type code of a byte string (0x01) is
below that of a text string (0x02), which is below every integer code
(0x0b..0x1d); within a type the encoding is order-preserving. -/
def elemLt : Elem → Elem → Bool
  | .bytes a, .bytes b => bytesLt a b
  | .bytes _, .str _ => true
  | .bytes _, .int _ => true
  | .str _, .bytes _ => false
  | .str a, .str b => strLt a b
  | .str _, .int _ => true
  | .int _, .bytes _ => false
  | .int _, .str _ => false
  | .int a, .int b => decide (a < b)

/-- Byte order of packed tuple keys: element-wise lexicographic, and a packed
tuple sorts strictly below every packed extension of it. -/
def keyLt : TupleKey → TupleKey → Bool
  | _, [] => false
  | [], _ :: _ => true
  | a :: as, b :: bs => if elemLt a b then true else if elemLt b a then false else keyLt as bs

/-- Queue job record (type FDBQueueJob in fdb-queue.ts); the opaque data
payload is modelled as a string. -/
structure FDBQueueJob where
  id : String
  data : String
  priority : Int
  listenable : Bool
  createdAt : Int
  timesOutAt : Option Int
  listenChannelId : Option String
  crawlId : Option String
  teamId : String
deriving DecidableEq

/-- Value stored in the TTL index (JSON with priority, createdAt, crawlId). -/
structure TTLValue where
  priority : Int
  createdAt : Int
  crawlId : Option String
deriving DecidableEq

/-- Value stored in the crawl index (JSON with teamId, priority, createdAt). -/
structure CrawlIndexValue where
  teamId : String
  priority : Int
  createdAt : Int
deriving DecidableEq

/-- Values stored by the queue: job records (JSON), TTL index records (JSON),
crawl index records (JSON), and little-endian int64 counters. -/
inductive Val where
  | jobVal (j : FDBQueueJob)
  | ttlVal (t : TTLValue)
  | crawlIdxVal (c : CrawlIndexValue)
  | intVal (n : Int)
deriving DecidableEq

/-- The key-value store: association list kept sorted by keyLt (FoundationDB
keeps keys in byte order). -/
abbrev Store := List (TupleKey × Val)

/-- Read the value at a key (database.get / tr.get). -/
def kvGet (k : TupleKey) : Store → Option Val
  | [] => none
  | e :: t => if e.1 = k then some e.2 else kvGet k t

/-- Delete a key (tr.clear). -/
def kvClear (k : TupleKey) (s : Store) : Store :=
  s.filter (fun e => e.1 != k)

/-- Write a key (tr.set), keeping the store sorted. -/
def kvSet (k : TupleKey) (v : Val) : Store → Store
  | [] => [(k, v)]
  | e :: t =>
    if k = e.1 then (k, v) :: t
    else if keyLt k e.1 then (k, v) :: e :: t
    else e :: kvSet k v t

/-- Range read of at most limit entries with start ≤ key < last, in key order
(tr.getRangeAll(start, last, limit) on the sorted store). -/
def kvRange (start last : TupleKey) (limit : Nat) (s : Store) : List (TupleKey × Val) :=
  (s.filter (fun e => !keyLt e.1 start && keyLt e.1 last)).take limit

/-- Range read of at most limit entries with cursor < key < last, modelling a
scan whose start key is the previous last key with a 0x00 byte appended
(Buffer.concat([lastKey, 0x00])): in byte order that start is the immediate
successor of the cursor key. -/
def kvRangeAfter (cursor last : TupleKey) (limit : Nat) (s : Store) : List (TupleKey × Val) :=
  (s.filter (fun e => keyLt cursor e.1 && keyLt e.1 last)).take limit

/-
Key builders, matching fdb-queue.ts lines 10-21 and 190-240.  The subspace
byte constants are the single-byte Buffers of the source.
-/

/-- Subspace byte 0x01 of the main queue. -/
def queuePfx : Elem := .bytes [1]

/-- Subspace byte 0x02 of the crawl index. -/
def crawlIdxPfx : Elem := .bytes [2]

/-- Subspace byte 0x03 of the counters. -/
def counterPfx : Elem := .bytes [3]

/-- Subspace byte 0x04 of team-level active jobs. -/
def activePfx : Elem := .bytes [4]

/-- Subspace byte 0x05 of crawl-level active jobs. -/
def activeCrawlPfx : Elem := .bytes [5]

/-- Subspace byte 0x06 of the TTL index. -/
def ttlIdxPfx : Elem := .bytes [6]

/-- Counter kind byte 0x01 (team queue counter). -/
def counterTeam : Elem := .bytes [1]

/-- Counter kind byte 0x02 (crawl queue counter). -/
def counterCrawl : Elem := .bytes [2]

/-- Counter kind byte 0x03 (team active counter). -/
def counterActiveTeam : Elem := .bytes [3]

/-- Counter kind byte 0x04 (crawl active counter). -/
def counterActiveCrawl : Elem := .bytes [4]

/-- Tuple element Buffer.from([0xff]), used by the source as the last element
of range end keys. -/
def byteFF : Elem := .bytes [255]

/-- Queue key (prefix, team_id, priority, created_at, job_id). -/
def buildQueueKey (teamId : String) (priority createdAt : Int) (jobId : String) : TupleKey :=
  [queuePfx, .str teamId, .int priority, .int createdAt, .str jobId]

/-- Crawl index key (prefix, crawl_id, job_id). -/
def buildCrawlIndexKey (crawlId jobId : String) : TupleKey :=
  [crawlIdxPfx, .str crawlId, .str jobId]

/-- Team queue counter key. -/
def buildTeamCounterKey (teamId : String) : TupleKey :=
  [counterPfx, counterTeam, .str teamId]

/-- Crawl queue counter key. -/
def buildCrawlCounterKey (crawlId : String) : TupleKey :=
  [counterPfx, counterCrawl, .str crawlId]

/-- Team active counter key. -/
def buildActiveTeamCounterKey (teamId : String) : TupleKey :=
  [counterPfx, counterActiveTeam, .str teamId]

/-- TTL index key (prefix, expires_at, team_id, job_id). -/
def buildTTLIndexKey (expiresAt : Int) (teamId jobId : String) : TupleKey :=
  [ttlIdxPfx, .int expiresAt, .str teamId, .str jobId]

/-
JavaScript truthiness of the optional values the source branches on:
an optional string is truthy iff it is present and non-empty, an optional
number is truthy iff it is present and non-zero.
-/

/-- Truthiness of an optional string (if (crawlId) in the source). -/
def strTruthy : Option String → Bool
  | none => false
  | some s => s != ""

/-- Truthiness of an optional number (if (timesOutAt) in the source). -/
def intTruthy : Option Int → Bool
  | none => false
  | some n => n != 0

/-- Decoding of a stored value by decodeInt64LE: counters hold intVal; reading
a non-counter payload as a little-endian integer is unreachable in
well-formed stores and is modelled as 0. -/
def decodeCounterVal : Val → Int
  | .intVal n => n
  | _ => 0

/-- Current integer value of a counter key, with a missing key reading as 0
(the semantics of the FDB atomic ADD operand). -/
def counterGet (k : TupleKey) (s : Store) : Int :=
  match kvGet k s with
  | some v => decodeCounterVal v
  | none => 0

/-- Atomic ADD on a counter key (tr.add(key, encodeInt64LE(delta))): a missing
key is treated as 0, then the sum is stored. -/
def counterAdd (k : TupleKey) (delta : Int) (s : Store) : Store :=
  kvSet k (.intVal (counterGet k s + delta)) s

/-- Number.MAX_SAFE_INTEGER. -/
def MAX_SAFE_INTEGER : Int := 2 ^ 53 - 1

/-- Input of pushJob (the job argument of fdb-queue.ts line 247). -/
structure PushJobInput where
  id : String
  data : String
  priority : Int
  listenable : Bool
  listenChannelId : Option String
deriving DecidableEq

/-- The pushJob transaction (fdb-queue.ts lines 245-326): write the queue
entry, increment the team counter, write the TTL index entry when the job has
a timeout (no crawlId in the JavaScript-truthy sense, 0 < timeout <
MAX_SAFE_INTEGER), and write the crawl index entry and increment the crawl
counter when crawlId is truthy.  The now argument is Date.now() (createdAt). -/
def pushJob (s : Store) (teamId : String) (job : PushJobInput) (timeout : Int)
    (crawlId : Option String) (now : Int) : Store :=
  let createdAt := now
  let hasTimeout := !strTruthy crawlId && decide (0 < timeout) &&
    decide (timeout < MAX_SAFE_INTEGER)
  let timesOutAt : Option Int := if hasTimeout then some (createdAt + timeout) else none
  let jobData : FDBQueueJob :=
    { id := job.id, data := job.data, priority := job.priority,
      listenable := job.listenable, createdAt := createdAt,
      timesOutAt := timesOutAt, listenChannelId := job.listenChannelId,
      crawlId := crawlId, teamId := teamId }
  let s1 := kvSet (buildQueueKey teamId job.priority createdAt job.id) (.jobVal jobData) s
  let s2 := counterAdd (buildTeamCounterKey teamId) 1 s1
  let s3 :=
    match timesOutAt with
    | some t =>
      if t != 0 then
        kvSet (buildTTLIndexKey t teamId job.id)
          (.ttlVal { priority := job.priority, createdAt := createdAt, crawlId := crawlId }) s2
      else s2
    | none => s2
  match crawlId with
  | some cid =>
    if cid != "" then
      counterAdd (buildCrawlCounterKey cid) 1
        (kvSet (buildCrawlIndexKey cid job.id)
          (.crawlIdxVal { teamId := teamId, priority := job.priority, createdAt := createdAt }) s3)
    else s3
  | none => s3

/-
The pop path (fdb-queue.ts lines 425-621).  Phase 1 is a snapshot range scan
of up to 50 candidates; phase 2 filters expired jobs and jobs blocked by their
crawl concurrency; phase 3 is the removal transaction.  External state
(getCrawl from Redis, the crawlConcurrencyChecker callback) is passed as pure
functions; with a pure environment the crawl and concurrency caches of the
source are transparent and are not modelled.  The backoff sleeps do not affect
state.
-/

/-- Part of a StoredCrawl read by popNextJob: crawlerOptions.delay and
maxConcurrency. -/
structure StoredCrawl where
  delay : Option Int
  maxConcurrency : Option Int
deriving DecidableEq

/-- Decoding of JSON.parse(value) as FDBQueueJob for a queue entry; a
non-job payload is unreachable in well-formed stores. -/
def valAsJob : Val → FDBQueueJob
  | .jobVal j => j
  | _ =>
    { id := "", data := "", priority := 0, listenable := false, createdAt := 0,
      timesOutAt := none, listenChannelId := none, crawlId := none, teamId := "" }

/-- Phase 1 candidate scan: getRangeAll from pack([QUEUE_PREFIX, teamId]) to
pack([QUEUE_PREFIX, teamId, Buffer.from([0xff])]) with limit 50. -/
def popCandidates (teamId : String) (s : Store) : List (TupleKey × FDBQueueJob) :=
  (kvRange [queuePfx, .str teamId] [queuePfx, .str teamId, byteFF] 50 s).map
    (fun e => (e.1, valAsJob e.2))

/-- TTL check of phase 2: job.timesOutAt && job.timesOutAt < now. -/
def jobExpired (now : Int) (job : FDBQueueJob) : Bool :=
  intTruthy job.timesOutAt &&
    (match job.timesOutAt with
     | some t => decide (t < now)
     | none => false)

/-- Crawl concurrency check of phase 2: with crawl info present, the limit is
1 when crawlerOptions.delay is a positive number, otherwise maxConcurrency;
when a limit and a checker exist the job is blocked iff the checker denies the
crawl. -/
def jobBlocked (getCrawl : String → Option StoredCrawl)
    (checker : Option (String → Bool)) (job : FDBQueueJob) : Bool :=
  match job.crawlId with
  | none => false
  | some cid =>
    if cid != "" then
      match getCrawl cid with
      | none => false
      | some sc =>
        let maxCrawlConcurrency : Option Int :=
          match sc.delay with
          | some d => if 0 < d then some 1 else sc.maxConcurrency
          | none => sc.maxConcurrency
        match maxCrawlConcurrency, checker with
        | some _, some canRun => !canRun cid
        | _, _ => false
    else false

/-- Outcome of phase 2: the expired candidates seen before a selection, the
first valid candidate if any, and the number skipped by concurrency. -/
structure PopSelection where
  expired : List (TupleKey × FDBQueueJob)
  selected : Option (TupleKey × FDBQueueJob)
  skipped : Nat
deriving DecidableEq

/-- Phase 2 scan over the candidates in order: collect expired jobs, skip
blocked jobs, and stop at the first valid one. -/
def selectJob (now : Int) (getCrawl : String → Option StoredCrawl)
    (checker : Option (String → Bool)) :
    List (TupleKey × FDBQueueJob) → PopSelection
  | [] => { expired := [], selected := none, skipped := 0 }
  | c :: rest =>
    if jobExpired now c.2 then
      let r := selectJob now getCrawl checker rest
      { r with expired := c :: r.expired }
    else if jobBlocked getCrawl checker c.2 then
      let r := selectJob now getCrawl checker rest
      { r with skipped := r.skipped + 1 }
    else
      { expired := [], selected := some c, skipped := 0 }

/-- Removal of one queue entry inside a transaction (the body shared by the
expired-job cleanup and the selected-job removal): clear the queue key,
decrement the team counter, clear the TTL index key when timesOutAt is truthy,
and clear the crawl index key and decrement the crawl counter when crawlId is
truthy. -/
def removeOneJob (teamId : String) (kv : TupleKey × FDBQueueJob) (s : Store) : Store :=
  let s1 := kvClear kv.1 s
  let s2 := counterAdd (buildTeamCounterKey teamId) (-1) s1
  let s3 :=
    match kv.2.timesOutAt with
    | some t => if t != 0 then kvClear (buildTTLIndexKey t teamId kv.2.id) s2 else s2
    | none => s2
  match kv.2.crawlId with
  | some cid =>
    if cid != "" then
      counterAdd (buildCrawlCounterKey cid) (-1) (kvClear (buildCrawlIndexKey cid kv.2.id) s3)
    else s3
  | none => s3

/-- Expired-job cleanup of phase 3: each expired candidate is removed only if
it still exists at the transaction read. -/
def clearExpired (teamId : String) (l : List (TupleKey × FDBQueueJob)) (s : Store) : Store :=
  l.foldl (fun st kv => if (kvGet kv.1 st).isSome then removeOneJob teamId kv st else st) s

/-- Result variants of the phase 3 transaction. -/
inductive PopTxResult where
  | found (j : FDBQueueJob)
  | jobGone
  | noValidJob (skipped : Nat)
deriving DecidableEq

/-- Phase 3 removal transaction (fdb-queue.ts lines 551-592): clean up the
expired candidates, then re-read the selected entry; if it is still present
remove it and return it, otherwise report job_gone. -/
def removalTxn (teamId : String) (sel : PopSelection) (s : Store) : PopTxResult × Store :=
  let s1 := clearExpired teamId sel.expired s
  match sel.selected with
  | none => (.noValidJob sel.skipped, s1)
  | some kv =>
    if (kvGet kv.1 s1).isSome then (.found kv.2, removeOneJob teamId kv s1)
    else (.jobGone, s1)

/-- The attempt loop of popNextJob with explicit fuel (the source bounds it by
100 attempts and returns null when the bound is hit). -/
def popNextJobLoop (getCrawl : String → Option StoredCrawl)
    (checker : Option (String → Bool)) (teamId : String) (now : Int) :
    Nat → Store → Option FDBQueueJob × Store
  | 0, s => (none, s)
  | fuel + 1, s =>
    let cands := popCandidates teamId s
    if cands.isEmpty then (none, s)
    else
      let sel := selectJob now getCrawl checker cands
      let r := removalTxn teamId sel s
      match r.1 with
      | .found j => (some j, r.2)
      | .jobGone => popNextJobLoop getCrawl checker teamId now fuel r.2
      | .noValidJob skipped =>
        if skipped = 0 then (none, r.2)
        else popNextJobLoop getCrawl checker teamId now fuel r.2

/-- popNextJob (fdb-queue.ts lines 425-621) with its attempt bound of 100;
now is the Date.now() captured once at entry. -/
def popNextJob (getCrawl : String → Option StoredCrawl)
    (checker : Option (String → Bool)) (teamId : String) (now : Int) (s : Store) :
    Option FDBQueueJob × Store :=
  popNextJobLoop getCrawl checker teamId now 100 s

/-- getTeamQueueCount (fdb-queue.ts lines 626-631): decode the counter value,
or 0 when the key is missing.  The stored value is returned as is. -/
def getTeamQueueCount (s : Store) (teamId : String) : Int :=
  match kvGet (buildTeamCounterKey teamId) s with
  | some v => decodeCounterVal v
  | none => 0

/-- getCrawlQueueCount (fdb-queue.ts lines 746-751): decode the counter value,
or 0 when the key is missing.  The stored value is returned as is. -/
def getCrawlQueueCount (s : Store) (crawlId : String) : Int :=
  match kvGet (buildCrawlCounterKey crawlId) s with
  | some v => decodeCounterVal v
  | none => 0

/-- getActiveJobCount (fdb-queue.ts lines 876-883): decode the counter value,
or 0 when missing, then clamp to at least 0 with Math.max. -/
def getActiveJobCount (s : Store) (teamId : String) : Int :=
  let count :=
    match kvGet (buildActiveTeamCounterKey teamId) s with
    | some v => decodeCounterVal v
    | none => 0
  max 0 count

/-
TTL cleanup (fdb-queue.ts lines 1009-1078).
-/

/-- Processing of a single TTL index entry inside the cleanup transaction:
unpack (expires_at, team_id, job_id) from the key and (priority, createdAt,
crawlId) from the value, clear the queue entry, decrement the team counter,
clear the crawl index entry and decrement the crawl counter when crawlId is
truthy, and clear the TTL index entry itself.  A malformed entry is
unreachable in well-formed stores; it is modelled as clearing only the TTL
key. -/
def processTTLEntry (st : Store) (kv : TupleKey × Val) : Store :=
  match kv with
  | ([_, .int _, .str teamId, .str jobId], .ttlVal tv) =>
    let s1 := kvClear (buildQueueKey teamId tv.priority tv.createdAt jobId) st
    let s2 := counterAdd (buildTeamCounterKey teamId) (-1) s1
    let s3 :=
      match tv.crawlId with
      | some cid =>
        if cid != "" then
          counterAdd (buildCrawlCounterKey cid) (-1) (kvClear (buildCrawlIndexKey cid jobId) s2)
        else s2
      | none => s2
    kvClear kv.1 s3
  | _ => kvClear kv.1 st

/-- One cleanup batch transaction: scan the TTL index from pack([prefix]) to
pack([prefix, now]) with limit 100 and process every entry, counting them. -/
def cleanBatch (now : Int) (s : Store) : Nat × Store :=
  let entries := kvRange [ttlIdxPfx] [ttlIdxPfx, .int now] 100 s
  (entries.length, entries.foldl processTTLEntry s)

/-- The batch loop of cleanExpiredJobs: up to the given number of batches,
stopping after any batch that processed fewer than 100 entries. -/
def cleanLoop (now : Int) : Nat → Nat → Store → Nat × Store
  | 0, acc, s => (acc, s)
  | b + 1, acc, s =>
    let r := cleanBatch now s
    if r.1 < 100 then (acc + r.1, r.2) else cleanLoop now b (acc + r.1) r.2

/-- cleanExpiredJobs (fdb-queue.ts lines 1009-1078) with MAX_BATCHES = 10:
returns the number of cleaned entries and the resulting store. -/
def cleanExpiredJobs (now : Int) (s : Store) : Nat × Store :=
  cleanLoop now 10 0 s

/-
Counter reconciliation (fdb-queue.ts lines 1233-1347).
-/

/-- The batched counting loop shared by the reconcilers: repeatedly read up
to 1000 entries of the range, the first batch from the range start and each
later batch from just after the last key seen, until a batch is short.  The
fuel argument bounds the number of batches; since every non-final batch
consumes 1000 distinct entries, fuel s.length + 1 never runs out. -/
def reconcileCountLoop (start last : TupleKey) (s : Store) :
    Nat → Option TupleKey → Nat → Nat
  | 0, _, acc => acc
  | fuel + 1, cursor, acc =>
    let entries :=
      match cursor with
      | none => kvRange start last 1000 s
      | some c => kvRangeAfter c last 1000 s
    let acc := acc + entries.length
    if entries.length < 1000 then acc
    else
      match entries.getLast? with
      | some e => reconcileCountLoop start last s fuel (some e.1) acc
      | none => acc

/-- The batched count of reconcileTeamQueueCounter: the range is
pack([QUEUE_PREFIX, teamId]) to pack([QUEUE_PREFIX, teamId, Buffer([0xff])]). -/
def reconcileTeamActualCount (s : Store) (teamId : String) : Nat :=
  reconcileCountLoop [queuePfx, .str teamId] [queuePfx, .str teamId, byteFF]
    s (s.length + 1) none 0

/-- The batched count of reconcileCrawlQueueCounter over the crawl index
range pack([CRAWL_INDEX_PREFIX, crawlId]) to
pack([CRAWL_INDEX_PREFIX, crawlId, Buffer([0xff])]). -/
def reconcileCrawlActualCount (s : Store) (crawlId : String) : Nat :=
  reconcileCountLoop [crawlIdxPfx, .str crawlId] [crawlIdxPfx, .str crawlId, byteFF]
    s (s.length + 1) none 0

/-- reconcileTeamQueueCounter (fdb-queue.ts lines 1233-1285): count the jobs
of the team, compare with the stored counter, and when they differ set the
counter to the counted value; returns the correction and the new store. -/
def reconcileTeamQueueCounter (s : Store) (teamId : String) : Int × Store :=
  let actualCount : Int := reconcileTeamActualCount s teamId
  let counterKey := buildTeamCounterKey teamId
  let currentCount : Int :=
    match kvGet counterKey s with
    | some v => decodeCounterVal v
    | none => 0
  if actualCount = currentCount then (0, s)
  else (actualCount - currentCount, kvSet counterKey (.intVal actualCount) s)

/-- reconcileCrawlQueueCounter (fdb-queue.ts lines 1291-1347): the crawl
analogue of reconcileTeamQueueCounter, counting via the crawl index. -/
def reconcileCrawlQueueCounter (s : Store) (crawlId : String) : Int × Store :=
  let actualCount : Int := reconcileCrawlActualCount s crawlId
  let counterKey := buildCrawlCounterKey crawlId
  let currentCount : Int :=
    match kvGet counterKey s with
    | some v => decodeCounterVal v
    | none => 0
  if actualCount = currentCount then (0, s)
  else (actualCount - currentCount, kvSet counterKey (.intVal actualCount) s)

/-
Client circuit breaker (fdb-queue.ts lines 38-109).
-/

/-- Circuit breaker state labels. -/
inductive CircuitState where
  | closed
  | opened
  | halfOpen
deriving DecidableEq

/-- The module-level breaker variables circuitState, circuitOpenedAt and
consecutiveFailures. -/
structure BreakerState where
  circuitState : CircuitState
  circuitOpenedAt : Int
  consecutiveFailures : Nat
deriving DecidableEq

/-- CIRCUIT_OPEN_DURATION_MS. -/
def CIRCUIT_OPEN_DURATION_MS : Int := 5000

/-- CIRCUIT_FAILURE_THRESHOLD. -/
def CIRCUIT_FAILURE_THRESHOLD : Nat := 3

/-- Result of checkCircuit: either the operation proceeds with the updated
state, or an FDBCircuitOpenError is thrown. -/
inductive CircuitCheck where
  | proceed (s : BreakerState)
  | circuitOpenError
deriving DecidableEq

/-- checkCircuit (lines 61-71): when the circuit is open, transition to
half-open if CIRCUIT_OPEN_DURATION_MS has elapsed since it opened, otherwise
throw FDBCircuitOpenError; in other states proceed unchanged. -/
def checkCircuit (s : BreakerState) (now : Int) : CircuitCheck :=
  match s.circuitState with
  | .opened =>
    if CIRCUIT_OPEN_DURATION_MS ≤ now - s.circuitOpenedAt then
      .proceed { s with circuitState := .halfOpen }
    else .circuitOpenError
  | _ => .proceed s

/-- recordSuccess (lines 76-84): a success in half-open closes the circuit and
resets the failure count; in closed it resets the failure count. -/
def recordSuccess (s : BreakerState) : BreakerState :=
  match s.circuitState with
  | .halfOpen => { s with circuitState := .closed, consecutiveFailures := 0 }
  | .closed => { s with consecutiveFailures := 0 }
  | .opened => s

/-- recordFailure (lines 89-109): increment consecutiveFailures; a failure in
half-open reopens the circuit, otherwise the circuit opens once the count
reaches CIRCUIT_FAILURE_THRESHOLD. -/
def recordFailure (s : BreakerState) (now : Int) : BreakerState :=
  let s1 := { s with consecutiveFailures := s.consecutiveFailures + 1 }
  match s1.circuitState with
  | .halfOpen => { s1 with circuitState := .opened, circuitOpenedAt := now }
  | _ =>
    if CIRCUIT_FAILURE_THRESHOLD ≤ s1.consecutiveFailures then
      { s1 with circuitState := .opened, circuitOpenedAt := now }
    else s1

/-- Fold of recordFailure over a list of failure times. -/
def recordFailures (s : BreakerState) (times : List Int) : BreakerState :=
  times.foldl recordFailure s

/-
The team concurrency semaphore client (team-semaphore.ts lines 35-91,
acquireBlocking).  The Redis acquire script is the environment: attempt i of
the retry loop observes the abort flag, Date.now(), and the granted flag and
removed count returned by the script.
-/

/-- Environment observed by attempt i of acquireBlocking: the AbortSignal
state, Date.now() at the top of the iteration, and the script result
(granted, count, removed). -/
structure AcqEnv where
  aborted : Bool
  now : Int
  granted : Bool
  scriptCount : Int
  scriptRemoved : Int
deriving DecidableEq

/-- Result of acquireBlocking: a ScrapeJobTimeoutError, or success with the
limited flag and the removed field. -/
inductive AcqResult where
  | timedOut
  | granted (limited : Bool) (removed : Nat)
deriving DecidableEq

/-- Backoff update delay = min(max_delay_ms, floor(delay * 1.5)); the jitter
only affects sleep time. -/
def nextDelay (maxDelay delay : Int) : Int := min maxDelay (3 * delay / 2)

/-- The do-while loop of acquireBlocking (lines 57-90): at the top of every
iteration a fired signal or a passed deadline throws a timeout; otherwise the
script runs, totalRemoved is incremented, and a grant returns
(limited := failedOnce, removed := totalRemoved); on a refusal failedOnce is
set and the loop backs off.  The fuel argument truncates the unbounded loop;
none means the run was cut before producing a result. -/
def acquireBlockingLoop (deadline maxDelay : Int) (env : Nat → AcqEnv) :
    Int → Bool → Nat → Nat → Nat → Option AcqResult
  | _, _, _, _, 0 => none
  | delay, failedOnce, totalRemoved, i, fuel + 1 =>
    let e := env i
    if e.aborted then some .timedOut
    else if deadline < e.now then some .timedOut
    else
      let tot := totalRemoved + 1
      if e.granted then some (.granted failedOnce tot)
      else acquireBlockingLoop deadline maxDelay env (nextDelay maxDelay delay) true tot (i + 1) fuel

/-- acquireBlocking (team-semaphore.ts lines 35-91): run the loop from the
base delay with failedOnce false and totalRemoved 0. -/
def acquireBlocking (deadline baseDelay maxDelay : Int) (env : Nat → AcqEnv)
    (fuel : Nat) : Option AcqResult :=
  acquireBlockingLoop deadline maxDelay env baseDelay false 0 0 fuel

/-
Shape predicates over keys, used to state well-formedness of stores: every
key a real deployment of the queue ever writes has one of the six subspace
shapes below.
-/

/-- Well-formed key: one of the six key shapes the queue writes. -/
def wfKey (k : TupleKey) : Bool :=
  match k with
  | [p, .str _, .int _, .int _, .str _] => p == queuePfx
  | [p, .str _, .str _] => p == crawlIdxPfx || p == activePfx || p == activeCrawlPfx
  | [p, .bytes kb, .str _] =>
    p == counterPfx && (kb == [1] || kb == [2] || kb == [3] || kb == [4])
  | [p, .int _, .str _, .str _] => p == ttlIdxPfx
  | _ => false

/-- TTL index key shape. -/
def isTTLKey (k : TupleKey) : Bool :=
  match k with
  | [p, .int _, .str _, .str _] => p == ttlIdxPfx
  | _ => false

/-- Counter key shape. -/
def isCounterKey (k : TupleKey) : Bool :=
  match k with
  | [p, .bytes _, .str _] => p == counterPfx
  | _ => false

/-- Expiry timestamp carried by a TTL index key. -/
def ttlExpAt : TupleKey → Int
  | [_, .int e, _, _] => e
  | _ => 0

/-- Predicate selecting the expired TTL index entries at a given time. -/
def expiredTTLp (now : Int) (e : TupleKey × Val) : Bool :=
  isTTLKey e.1 && decide (ttlExpAt e.1 < now)

/-- The expired TTL index entries of a store, in store order. -/
def expiredTTL (now : Int) (s : Store) : List (TupleKey × Val) :=
  s.filter (expiredTTLp now)

/-- Fold of processTTLEntry over a list of entries. -/
def processList (l : List (TupleKey × Val)) (s : Store) : Store :=
  l.foldl processTTLEntry s

/-- Team recorded in a TTL index key. -/
def ttlKeyTeam : TupleKey → Option String
  | [_, .int _, .str t, .str _] => some t
  | _ => none

/-- Truthy crawl id recorded in the value of a TTL index entry. -/
def ttlEntryCrawl (kv : TupleKey × Val) : Option String :=
  match kv.2 with
  | .ttlVal tv =>
    match tv.crawlId with
    | some cid => if cid != "" then some cid else none
    | none => none
  | _ => none

/-- Number of entries of a TTL entry list recorded for a team. -/
def countTeamOf (l : List (TupleKey × Val)) (t : String) : Nat :=
  (l.filter (fun kv => ttlKeyTeam kv.1 == some t)).length

/-- Number of entries of a TTL entry list recorded for a truthy crawl id. -/
def countCrawlOf (l : List (TupleKey × Val)) (c : String) : Nat :=
  (l.filter (fun kv => ttlEntryCrawl kv == some c)).length

/-- Modelled from the spec: a claim record, which the specification describes
at key (job_id, versionstamp) with a store-assigned 10-byte versionstamp, is
any key containing a 10-byte byte-string element.  The source code of
popNextJob has no claim-record subspace, so the notion exists only in the
specification. -/
def specHasVersionstamp (k : TupleKey) : Bool :=
  k.any (fun e =>
    match e with
    | .bytes b => b.length == 10
    | _ => false)

/-- Modelled from the spec: the ground-truth count behind the team queue
counter is the number of queue entries of that team present in the store. -/
def specTeamQueueGroundTruth (s : Store) (teamId : String) : Nat :=
  (s.filter (fun kv =>
    match kv.1 with
    | [p, .str t, .int _, .int _, .str _] => p == queuePfx && t == teamId
    | _ => false)).length

/-- Modelled from the spec: the ground-truth count behind the crawl queue
counter is the number of crawl index entries of that crawl present in the
store. -/
def specCrawlQueueGroundTruth (s : Store) (crawlId : String) : Nat :=
  (s.filter (fun kv =>
    match kv.1 with
    | [p, .str c, .str _] => p == crawlIdxPfx && c == crawlId
    | _ => false)).length

/-
Concrete stores and environments used by the closed theorems below.
-/

/-- Crawl info environment returning no crawl for any id. -/
def noCrawlEnv : String → Option StoredCrawl := fun _ => none

/-- One plain job as pushed by a worker. -/
def jobA : PushJobInput :=
  { id := "j1", data := "payload-a", priority := 5, listenable := false,
    listenChannelId := none }

/-- Second plain job. -/
def jobB : PushJobInput :=
  { id := "j2", data := "payload-b", priority := 7, listenable := true,
    listenChannelId := none }

/-- Third plain job. -/
def jobC : PushJobInput :=
  { id := "j3", data := "payload-c", priority := 10, listenable := false,
    listenChannelId := none }

/-- Store holding one pushed job for team t1 (queue entry, team counter and
TTL index entry). -/
def storeOneJob : Store := pushJob [] "t1" jobA 60000 none 1000

/-- Store holding one pushed crawl job for team t1 and crawl c1. -/
def storeCrawlJob : Store := pushJob [] "t1" jobA 60000 (some "c1") 1000

/-- Store produced by pushing a job with the empty string as crawl id. -/
def storeEmptyCrawl : Store := pushJob [] "t1" jobA 5000 (some "") 1000

/-- Store of the FIFO scenario of the specification: three jobs with
priorities 10, 10, 5 pushed at increasing times. -/
def storeFifo : Store :=
  pushJob
    (pushJob
      (pushJob [] "t1" { jobA with priority := 10 } 60000 none 1000)
      "t1" { jobB with priority := 10 } 60000 none 1001)
    "t1" { jobC with priority := 5 } 60000 none 1002

/-- Store with negative counter values for the counter-clamping claims. -/
def storeNegCounters : Store :=
  [(buildTeamCounterKey "t1", .intVal (-1)),
   (buildCrawlCounterKey "c1", .intVal (-2)),
   (buildActiveTeamCounterKey "t1", .intVal (-3))]

/-- Store for the TTL cleanup witness: one expired plain job, one expired
crawl-tagged TTL entry, and one live job. -/
def storeCleanWitness : Store :=
  kvSet (buildTTLIndexKey 900 "t2" "j9")
    (.ttlVal { priority := 1, createdAt := 400, crawlId := some "c9" })
    (kvSet (buildCrawlIndexKey "c9" "j9")
      (.crawlIdxVal { teamId := "t2", priority := 1, createdAt := 400 })
      (kvSet (buildQueueKey "t2" 1 400 "j9")
        (.jobVal { id := "j9", data := "d", priority := 1, listenable := false,
                   createdAt := 400, timesOutAt := some 900, listenChannelId := none,
                   crawlId := some "c9", teamId := "t2" })
        (counterAdd (buildCrawlCounterKey "c9") 1
          (counterAdd (buildTeamCounterKey "t2") 1
            (pushJob (pushJob [] "t1" jobA 500 none 100) "t1" jobB 90000 none 200)))))

/-- Semaphore environment whose first attempt is refused and whose second is
granted, with script removed counts that differ from the attempt count. -/
def envGrantSecond : Nat → AcqEnv := fun i =>
  if i = 0 then { aborted := false, now := 10, granted := false, scriptCount := 3, scriptRemoved := 7 }
  else { aborted := false, now := 20, granted := true, scriptCount := 2, scriptRemoved := 9 }

/-- Semaphore environment identical to envGrantSecond except for the script
count and removed fields. -/
def envGrantSecondAlt : Nat → AcqEnv := fun i =>
  if i = 0 then { aborted := false, now := 10, granted := false, scriptCount := 0, scriptRemoved := 0 }
  else { aborted := false, now := 20, granted := true, scriptCount := 0, scriptRemoved := 0 }

/-- Semaphore environment whose second attempt sees the abort signal fired. -/
def envAbortSecond : Nat → AcqEnv := fun i =>
  if i = 0 then { aborted := false, now := 10, granted := false, scriptCount := 1, scriptRemoved := 1 }
  else { aborted := true, now := 20, granted := true, scriptCount := 1, scriptRemoved := 1 }

/-- Stored job record of the job pushed into storeOneJob. -/
def jobARecord : FDBQueueJob :=
  { id := "j1", data := "payload-a", priority := 5, listenable := false,
    createdAt := 1000, timesOutAt := some 61000, listenChannelId := none,
    crawlId := none, teamId := "t1" }

/-- Whether a stored value is a TTL index payload. -/
def isTTLVal : Val → Bool
  | .ttlVal _ => true
  | _ => false

/-
Lemmas about the key-value store operations.
-/

/-- Reading the key just written returns the written value. -/
theorem kvGet_kvSet_self (k : TupleKey) (v : Val) (s : Store) :
    kvGet k (kvSet k v s) = some v := by
  induction s with
  | nil => simp [kvSet, kvGet]
  | cons e t ih =>
    obtain ⟨k1, v1⟩ := e
    by_cases h1 : k = k1
    · subst h1
      simp [kvSet, kvGet]
    · by_cases h2 : keyLt k k1
      · simp [kvSet, h1, h2, kvGet]
      · have h1' : ¬(k1 = k) := fun hh => h1 hh.symm
        simp [kvSet, h1, h2, kvGet, h1', ih]

/-- Writing one key does not change reads of another key. -/
theorem kvGet_kvSet_ne (k' k : TupleKey) (v : Val) (s : Store) (h : k' ≠ k) :
    kvGet k' (kvSet k v s) = kvGet k' s := by
  have h' : ¬(k = k') := fun hh => h hh.symm
  induction s with
  | nil => simp [kvSet, kvGet, h']
  | cons e t ih =>
    obtain ⟨k1, v1⟩ := e
    by_cases h1 : k = k1
    · subst h1
      simp [kvSet, kvGet, h']
    · by_cases h2 : keyLt k k1
      · simp [kvSet, h1, h2, kvGet, h']
      · simp [kvSet, h1, h2, kvGet, ih]

/-- Reading a cleared key returns nothing. -/
theorem kvGet_kvClear_self (k : TupleKey) (s : Store) :
    kvGet k (kvClear k s) = none := by
  induction s with
  | nil => simp [kvClear, kvGet]
  | cons e t ih =>
    obtain ⟨k1, v1⟩ := e
    by_cases h1 : k1 = k
    · subst h1
      simpa [kvClear, List.filter_cons] using ih
    · have hb : ((k1, v1).1 != k) = true := by simpa using h1
      simpa [kvClear, List.filter_cons, hb, kvGet, h1] using ih

/-- Clearing one key does not change reads of another key. -/
theorem kvGet_kvClear_ne (k' k : TupleKey) (s : Store) (h : k' ≠ k) :
    kvGet k' (kvClear k s) = kvGet k' s := by
  induction s with
  | nil => simp [kvClear, kvGet]
  | cons e t ih =>
    obtain ⟨k1, v1⟩ := e
    by_cases h1 : k1 = k
    · subst h1
      have h2 : ¬(k1 = k') := fun hh => h (hh ▸ rfl)
      simpa [kvClear, List.filter_cons, kvGet, h2] using ih
    · have hb : ((k1, v1).1 != k) = true := by simpa using h1
      by_cases h2 : k1 = k'
      · subst h2
        simp only [kvClear, List.filter_cons, if_pos hb]
        simp [kvGet]
      · simpa [kvClear, List.filter_cons, hb, kvGet, h2] using ih

/-- Entries with a different key survive a write. -/
theorem mem_kvSet_of_ne (kv : TupleKey × Val) (k : TupleKey) (v : Val) (s : Store)
    (hm : kv ∈ s) (h : kv.1 ≠ k) : kv ∈ kvSet k v s := by
  induction s with
  | nil => cases hm
  | cons e t ih =>
    obtain ⟨k1, v1⟩ := e
    by_cases h1 : k = k1
    · rcases List.mem_cons.mp hm with hm1 | hm1
      · exfalso
        apply h
        rw [hm1, h1]
      · subst h1
        simp only [kvSet, if_pos rfl]
        exact List.mem_cons_of_mem _ hm1
    · by_cases h2 : keyLt k k1
      · simp only [kvSet, if_neg h1, if_pos h2]
        exact List.mem_cons_of_mem _ hm
      · simp only [kvSet, if_neg h1, if_neg h2]
        rcases List.mem_cons.mp hm with hm1 | hm1
        · exact hm1 ▸ List.mem_cons_self _ _
        · exact List.mem_cons_of_mem _ (ih hm1)

/-- A member of a store after a write is the written pair or an old member. -/
theorem mem_of_mem_kvSet (kv : TupleKey × Val) (k : TupleKey) (v : Val) (s : Store)
    (hm : kv ∈ kvSet k v s) : kv = (k, v) ∨ kv ∈ s := by
  induction s with
  | nil => simpa [kvSet] using hm
  | cons e t ih =>
    obtain ⟨k1, v1⟩ := e
    by_cases h1 : k = k1
    · subst h1
      simp only [kvSet, if_pos rfl] at hm
      rcases List.mem_cons.mp hm with hm1 | hm1
      · exact Or.inl hm1
      · exact Or.inr (List.mem_cons_of_mem _ hm1)
    · by_cases h2 : keyLt k k1
      · simp only [kvSet, if_neg h1, if_pos h2] at hm
        rcases List.mem_cons.mp hm with hm1 | hm1
        · exact Or.inl hm1
        · exact Or.inr hm1
      · simp only [kvSet, if_neg h1, if_neg h2] at hm
        rcases List.mem_cons.mp hm with hm1 | hm1
        · exact Or.inr (hm1 ▸ List.mem_cons_self _ _)
        · rcases ih hm1 with hh | hh
          · exact Or.inl hh
          · exact Or.inr (List.mem_cons_of_mem _ hh)

/-- Entries with a different key survive a clear. -/
theorem mem_kvClear_of_ne (kv : TupleKey × Val) (k : TupleKey) (s : Store)
    (hm : kv ∈ s) (h : kv.1 ≠ k) : kv ∈ kvClear k s :=
  List.mem_filter.mpr ⟨hm, by simpa using h⟩

/-- A member of a store after a clear was a member before. -/
theorem mem_of_mem_kvClear (kv : TupleKey × Val) (k : TupleKey) (s : Store)
    (hm : kv ∈ kvClear k s) : kv ∈ s :=
  (List.mem_filter.mp hm).1

/-- A write at a key every filtered entry avoids does not change the filter. -/
theorem filter_kvSet_of_none (p : TupleKey × Val → Bool) (k : TupleKey) (v : Val)
    (s : Store) (h : ∀ v', p (k, v') = false) :
    (kvSet k v s).filter p = s.filter p := by
  induction s with
  | nil => simp [kvSet, h v]
  | cons e t ih =>
    obtain ⟨k1, v1⟩ := e
    by_cases h1 : k = k1
    · subst h1
      simp [kvSet, List.filter_cons, h v, h v1]
    · by_cases h2 : keyLt k k1
      · simp [kvSet, h1, h2, List.filter_cons, h v]
      · simp [kvSet, h1, h2, List.filter_cons, ih]

/-- Filtering after a clear filters the cleared key out. -/
theorem filter_kvClear (p : TupleKey × Val → Bool) (k : TupleKey) (s : Store) :
    (kvClear k s).filter p = (s.filter p).filter (fun e => e.1 != k) := by
  simp only [kvClear, List.filter_filter]
  exact List.filter_congr (fun x _ => Bool.and_comm _ _)

/-- A clear at a key every filtered entry avoids does not change the filter. -/
theorem filter_kvClear_of_none (p : TupleKey × Val → Bool) (k : TupleKey) (s : Store)
    (h : ∀ v', p (k, v') = false) :
    (kvClear k s).filter p = s.filter p := by
  rw [filter_kvClear]
  apply List.filter_eq_self.mpr
  intro e he
  rcases List.mem_filter.mp he with ⟨_, hp⟩
  obtain ⟨k1, v1⟩ := e
  rcases eq_or_ne k1 k with h1 | h1
  · rw [h1] at hp
    rw [h v1] at hp
    cases hp
  · simpa using h1

/-- Adding to a counter adds to its value. -/
theorem counterGet_counterAdd_self (k : TupleKey) (d : Int) (s : Store) :
    counterGet k (counterAdd k d s) = counterGet k s + d := by
  simp [counterAdd, counterGet, kvGet_kvSet_self, decodeCounterVal]

/-- Adding to a counter does not change another counter. -/
theorem counterGet_counterAdd_ne (k' k : TupleKey) (d : Int) (s : Store) (h : k' ≠ k) :
    counterGet k' (counterAdd k d s) = counterGet k' s := by
  simp [counterAdd, counterGet, kvGet_kvSet_ne _ _ _ _ h]

/-
Lemmas about key shapes and the range scans of the source.
-/

/-- Case analysis on a well-formed key. -/
theorem wfKey_cases (k : TupleKey) (h : wfKey k = true) :
    (∃ t p c j, k = [queuePfx, .str t, .int p, .int c, .str j]) ∨
    (∃ c j, k = [crawlIdxPfx, .str c, .str j]) ∨
    (∃ t j, k = [activePfx, .str t, .str j]) ∨
    (∃ c j, k = [activeCrawlPfx, .str c, .str j]) ∨
    (∃ kb t, k = [counterPfx, .bytes kb, .str t]) ∨
    (∃ e t j, k = [ttlIdxPfx, .int e, .str t, .str j]) := by
  unfold wfKey at h
  split at h
  case _ p t pr c j =>
    exact Or.inl ⟨t, pr, c, j, by rw [eq_of_beq h]⟩
  case _ p c j =>
    simp only [Bool.or_eq_true] at h
    rcases h with (h2 | h2) | h1
    · exact Or.inr (Or.inl ⟨c, j, by rw [eq_of_beq h2]⟩)
    · exact Or.inr (Or.inr (Or.inl ⟨c, j, by rw [eq_of_beq h2]⟩))
    · exact Or.inr (Or.inr (Or.inr (Or.inl ⟨c, j, by rw [eq_of_beq h1]⟩)))
  case _ p kb t =>
    simp only [Bool.and_eq_true] at h
    exact Or.inr (Or.inr (Or.inr (Or.inr (Or.inl ⟨kb, t, by rw [eq_of_beq h.1]⟩))))
  case _ p e t j =>
    exact Or.inr (Or.inr (Or.inr (Or.inr (Or.inr ⟨e, t, j, by rw [eq_of_beq h]⟩))))
  case _ =>
    cases h

/-- The TTL cleanup scan selects exactly the TTL index entries whose expiry is
strictly below now: on well-formed keys, the range bounds pack([prefix]) and
pack([prefix, now]) capture the TTL subspace below now and nothing else. -/
theorem ttl_range_eq (now : Int) (s : Store) (hwf : ∀ kv ∈ s, wfKey kv.1 = true) :
    kvRange [ttlIdxPfx] [ttlIdxPfx, .int now] 100 s = (expiredTTL now s).take 100 := by
  unfold kvRange expiredTTL
  congr 1
  apply List.filter_congr
  intro e he
  rcases wfKey_cases e.1 (hwf e he) with
    ⟨t, pr, c, j, hk⟩ | ⟨c, j, hk⟩ | ⟨t, j, hk⟩ | ⟨c, j, hk⟩ | ⟨kb, t, hk⟩ | ⟨ex, t, j, hk⟩
  · simp [hk, keyLt, elemLt, bytesLt, expiredTTLp, isTTLKey, queuePfx, ttlIdxPfx]
  · simp [hk, keyLt, elemLt, bytesLt, expiredTTLp, isTTLKey, crawlIdxPfx, ttlIdxPfx]
  · simp [hk, keyLt, elemLt, bytesLt, expiredTTLp, isTTLKey, activePfx, ttlIdxPfx]
  · simp [hk, keyLt, elemLt, bytesLt, expiredTTLp, isTTLKey, activeCrawlPfx, ttlIdxPfx]
  · simp [hk, keyLt, elemLt, bytesLt, expiredTTLp, isTTLKey, counterPfx, ttlIdxPfx]
  · rcases lt_trichotomy ex now with hlt | heq | hgt
    · simp [hk, keyLt, elemLt, bytesLt, expiredTTLp, isTTLKey, ttlExpAt, ttlIdxPfx, hlt]
    · subst heq
      simp [hk, keyLt, elemLt, bytesLt, expiredTTLp, isTTLKey, ttlExpAt, ttlIdxPfx]
    · simp [hk, keyLt, elemLt, bytesLt, expiredTTLp, isTTLKey, ttlExpAt, ttlIdxPfx,
        not_lt_of_gt hgt, le_of_lt hgt]

/-- The candidate scan of popNextJob is empty on every store with well-formed
keys: its end key pack([QUEUE_PREFIX, teamId, Buffer.from([0xff])]) carries a
byte-string third element, whose type code 0x01 sorts below the integer
priority element of every queue key of the team, so the scanned range
contains no queue entry. -/
theorem popCandidates_wf_nil (teamId : String) (s : Store)
    (hwf : ∀ kv ∈ s, wfKey kv.1 = true) : popCandidates teamId s = [] := by
  unfold popCandidates kvRange
  have hnil : List.filter
      (fun e => !keyLt e.1 [queuePfx, Elem.str teamId] &&
        keyLt e.1 [queuePfx, Elem.str teamId, byteFF]) s = [] := by
    apply List.filter_eq_nil_iff.mpr
    intro e he
    rcases wfKey_cases e.1 (hwf e he) with
      ⟨t, pr, c, j, hk⟩ | ⟨c, j, hk⟩ | ⟨t, j, hk⟩ | ⟨c, j, hk⟩ | ⟨kb, t, hk⟩ | ⟨ex, t, j, hk⟩
    · rcases lt_trichotomy t teamId with hlt | heq | hgt
      · simp [hk, keyLt, elemLt, bytesLt, queuePfx, byteFF, hlt]
      · subst heq
        simp [hk, keyLt, elemLt, bytesLt, queuePfx, byteFF]
      · simp [hk, keyLt, elemLt, bytesLt, queuePfx, byteFF, not_lt_of_gt hgt, le_of_lt hgt]
    · simp [hk, keyLt, elemLt, bytesLt, queuePfx, crawlIdxPfx, byteFF]
    · simp [hk, keyLt, elemLt, bytesLt, queuePfx, activePfx, byteFF]
    · simp [hk, keyLt, elemLt, bytesLt, queuePfx, activeCrawlPfx, byteFF]
    · simp [hk, keyLt, elemLt, bytesLt, queuePfx, counterPfx, byteFF]
    · simp [hk, keyLt, elemLt, bytesLt, queuePfx, ttlIdxPfx, byteFF]
  rw [hnil]
  rfl

/-- With an empty candidate scan, each iteration of the pop loop returns
nothing and leaves the store unchanged. -/
theorem popNextJobLoop_wf_none (getCrawl : String → Option StoredCrawl)
    (checker : Option (String → Bool)) (teamId : String) (now : Int)
    (fuel : Nat) (s : Store) (hwf : ∀ kv ∈ s, wfKey kv.1 = true) :
    popNextJobLoop getCrawl checker teamId now fuel s = (none, s) := by
  cases fuel with
  | zero => rfl
  | succ fuel => simp [popNextJobLoop, popCandidates_wf_nil teamId s hwf]

/-
Claim theorems.
-/

/-- C5: the specification claims that successive popNextJob calls return jobs
in non-decreasing (priority, created_at, job_id) order because the candidate
scan yields entries in key order and the first non-expired, non-blocked
candidate is selected.  In the code the candidate scan is empty on every
store with well-formed keys, because the scan end key
pack([QUEUE_PREFIX, teamId, Buffer.from([0xff])]) sorts below every queue key
of the team; popNextJob therefore returns no job and leaves the store
unchanged, never selecting any candidate. -/
theorem spec_c5_pop_returns_nothing (getCrawl : String → Option StoredCrawl)
    (checker : Option (String → Bool)) (teamId : String) (now : Int) (s : Store)
    (hwf : ∀ kv ∈ s, wfKey kv.1 = true) :
    popNextJob getCrawl checker teamId now s = (none, s) := by
  unfold popNextJob
  exact popNextJobLoop_wf_none getCrawl checker teamId now 100 s hwf

/-- Witness for C5: on the FIFO scenario store of the specification (three
pushed jobs with priorities 10, 10, 5), popNextJob returns nothing although a
queue entry is present. -/
theorem spec_c5_witness :
    popNextJob noCrawlEnv none "t1" 2000 storeFifo = (none, storeFifo) ∧
    (kvGet (buildQueueKey "t1" 5 1002 "j3") storeFifo).isSome = true :=
  ⟨spec_c5_pop_returns_nothing noCrawlEnv none "t1" 2000 storeFifo (by decide),
   by decide⟩

/-- C1: the specification claims that of several concurrent popNextJob
invocations exactly one claims a pushed job.  In the code no invocation ever
claims it: two successive pop invocations (the serialization of two
concurrent workers) both return nothing, the removal transaction is never
reached, and the pushed job stays in the store. -/
theorem spec_c1_no_worker_claims_pushed_job :
    (popNextJob noCrawlEnv none "t1" 2000 storeOneJob).1 = none ∧
    (popNextJob noCrawlEnv none "t1" 2000
      (popNextJob noCrawlEnv none "t1" 2000 storeOneJob).2).1 = none ∧
    (kvGet (buildQueueKey "t1" 5 1000 "j1") storeOneJob).isSome = true ∧
    (popNextJob noCrawlEnv none "t1" 2000 storeOneJob).2 = storeOneJob := by
  decide

/-- C7: the specification claims that an immediately repeated reconciliation
run observes the counter equal to the ground-truth count and returns a
correction of 0.  In the code the ground-truth scan is empty (its end key
sorts below every queue and crawl index key), so reconciliation zeroes an
accurate counter: on a store with one pushed job and counter 1, the first run
returns correction -1 and sets the counter to 0, and the repeated run returns
0 while the counter (0) differs from the ground-truth count (1).  The same
happens for the crawl variant. -/
theorem spec_c7_reconcile_not_ground_truth :
    (reconcileTeamQueueCounter storeOneJob "t1").1 = -1 ∧
    (reconcileTeamQueueCounter (reconcileTeamQueueCounter storeOneJob "t1").2 "t1").1 = 0 ∧
    getTeamQueueCount (reconcileTeamQueueCounter storeOneJob "t1").2 "t1" = 0 ∧
    specTeamQueueGroundTruth (reconcileTeamQueueCounter storeOneJob "t1").2 "t1" = 1 ∧
    (reconcileCrawlQueueCounter storeCrawlJob "c1").1 = -1 ∧
    (reconcileCrawlQueueCounter (reconcileCrawlQueueCounter storeCrawlJob "c1").2 "c1").1 = 0 ∧
    getCrawlQueueCount (reconcileCrawlQueueCounter storeCrawlJob "c1").2 "c1" = 0 ∧
    specCrawlQueueGroundTruth (reconcileCrawlQueueCounter storeCrawlJob "c1").2 "c1" = 1 := by
  decide

/-- C2, counterexample: the claim says every pop claim attempt writes a claim
record at a versionstamped key.  Popping a store holding one available job
leaves the store unchanged and no key of the resulting store carries a
versionstamp, so no claim record is ever written. -/
theorem spec_c2_counterexample :
    (kvGet (buildQueueKey "t1" 5 1000 "j1") storeOneJob).isSome = true ∧
    (popNextJob noCrawlEnv none "t1" 2000 storeOneJob).2 = storeOneJob ∧
    ((popNextJob noCrawlEnv none "t1" 2000 storeOneJob).2.all
      (fun e => !specHasVersionstamp e.1)) = true := by
  decide

/-- C3, counterexample: the claim says a TTL index entry is written iff
crawl_id is unset, and the crawl index entry and crawl counter are written iff
crawl_id is set.  Pushing with crawl_id set to the empty string and
timeout 5000 writes a TTL index entry and neither the crawl index entry nor
the crawl counter, because the source tests JavaScript truthiness of the
crawl id rather than presence. -/
theorem spec_c3_counterexample :
    (kvGet (buildTTLIndexKey 6000 "t1" "j1") storeEmptyCrawl).isSome = true ∧
    kvGet (buildCrawlIndexKey "" "j1") storeEmptyCrawl = none ∧
    getCrawlQueueCount storeEmptyCrawl "" = 0 := by
  decide

/-- C4, counterexample: the claim says the counter reads clamp negative
stored values to 0; the team and crawl queue counts return the stored
negative value unchanged. -/
theorem spec_c4_counterexample :
    getTeamQueueCount storeNegCounters "t1" = -1 ∧
    getCrawlQueueCount storeNegCounters "c1" = -2 ∧
    getTeamQueueCount storeNegCounters "t1" < 0 := by
  decide

/-- C4, amended: the team and crawl queue counts return 0 on a missing key
and the stored value unchanged otherwise (negative values included), while
the active job count returns 0 on a missing key, clamps stored values to at
least 0, and is never negative. -/
theorem spec_c4_amended (s : Store) (id : String) (v : Int) :
    (kvGet (buildTeamCounterKey id) s = none → getTeamQueueCount s id = 0) ∧
    (kvGet (buildTeamCounterKey id) s = some (.intVal v) → getTeamQueueCount s id = v) ∧
    (kvGet (buildCrawlCounterKey id) s = none → getCrawlQueueCount s id = 0) ∧
    (kvGet (buildCrawlCounterKey id) s = some (.intVal v) → getCrawlQueueCount s id = v) ∧
    (kvGet (buildActiveTeamCounterKey id) s = none → getActiveJobCount s id = 0) ∧
    (kvGet (buildActiveTeamCounterKey id) s = some (.intVal v) →
      getActiveJobCount s id = max 0 v) ∧
    0 ≤ getActiveJobCount s id := by
  refine ⟨?_, ?_, ?_, ?_, ?_, ?_, ?_⟩
  · intro h
    simp [getTeamQueueCount, h]
  · intro h
    simp [getTeamQueueCount, h, decodeCounterVal]
  · intro h
    simp [getCrawlQueueCount, h]
  · intro h
    simp [getCrawlQueueCount, h, decodeCounterVal]
  · intro h
    simp [getActiveJobCount, h]
  · intro h
    simp [getActiveJobCount, h, decodeCounterVal]
  · exact le_max_left 0 _

/-- Witness for the amended C4: on the store with stored counter values -1
and -3, the team queue count reads back -1 while the active job count clamps
to 0. -/
theorem spec_c4_amended_witness :
    getTeamQueueCount storeNegCounters "t1" = -1 ∧
    getActiveJobCount storeNegCounters "t1" = max 0 (-3) ∧
    0 ≤ getActiveJobCount storeNegCounters "t1" := by
  have h := spec_c4_amended storeNegCounters "t1" (-1)
  have h3 := spec_c4_amended storeNegCounters "t1" (-3)
  exact ⟨h.2.1 (by decide), h3.2.2.2.2.2.1 (by decide), h.2.2.2.2.2.2⟩

/-- Clearing any key preserves the absence of a key. -/
theorem kvGet_kvClear_none (k k' : TupleKey) (s : Store) (h : kvGet k s = none) :
    kvGet k (kvClear k' s) = none := by
  rcases eq_or_ne k k' with h1 | h1
  · rw [h1]
    exact kvGet_kvClear_self k' s
  · rw [kvGet_kvClear_ne k k' s h1]
    exact h

/-- Writing another key preserves a counter read. -/
theorem counterGet_kvSet_ne (k' k : TupleKey) (v : Val) (s : Store) (h : k' ≠ k) :
    counterGet k' (kvSet k v s) = counterGet k' s := by
  simp [counterGet, kvGet_kvSet_ne k' k v s h]

/-- Clearing another key preserves a counter read. -/
theorem counterGet_kvClear_ne (k' k : TupleKey) (s : Store) (h : k' ≠ k) :
    counterGet k' (kvClear k s) = counterGet k' s := by
  simp [counterGet, kvGet_kvClear_ne k' k s h]

/-- Every entry of the store after removeOneJob is an old entry or a counter
update of the team or a crawl counter. -/
theorem mem_removeOneJob (teamId : String) (kv : TupleKey × FDBQueueJob)
    (e : TupleKey × Val) (s : Store) (he : e ∈ removeOneJob teamId kv s) :
    e ∈ s ∨ e.1 = buildTeamCounterKey teamId ∨ ∃ c, e.1 = buildCrawlCounterKey c := by
  have hstep : ∀ (st : Store), e ∈ counterAdd (buildTeamCounterKey teamId) (-1) (kvClear kv.1 st) →
      e ∈ st ∨ e.1 = buildTeamCounterKey teamId ∨ ∃ c, e.1 = buildCrawlCounterKey c := by
    intro st hm
    rcases mem_of_mem_kvSet _ _ _ _ hm with h1 | h1
    · exact Or.inr (Or.inl (by rw [h1]))
    · exact Or.inl (mem_of_mem_kvClear _ _ _ h1)
  have httl : ∀ (st : Store),
      e ∈ (match kv.2.timesOutAt with
           | some t => if (t != 0) = true then kvClear (buildTTLIndexKey t teamId kv.2.id) st else st
           | none => st) →
      e ∈ st := by
    intro st hm
    split at hm
    · split at hm
      · exact mem_of_mem_kvClear _ _ _ hm
      · exact hm
    · exact hm
  simp only [removeOneJob] at he
  split at he
  · split at he
    · rcases mem_of_mem_kvSet _ _ _ _ he with h1 | h1
      · exact Or.inr (Or.inr ⟨_, by rw [h1]⟩)
      · exact hstep s (httl _ (mem_of_mem_kvClear _ _ _ h1))
    · exact hstep s (httl _ he)
  · exact hstep s (httl _ he)

/-- Removing a selected queue entry leaves no entry at its key: the only keys
the removal writes are counter keys, which differ in shape from a queue key. -/
theorem kvGet_removeOneJob_self (teamId : String) (kv : TupleKey × FDBQueueJob)
    (s : Store) (hq : ∃ t p c j, kv.1 = buildQueueKey t p c j) :
    kvGet kv.1 (removeOneJob teamId kv s) = none := by
  obtain ⟨t0, p, c, j, hk⟩ := hq
  have h1 : kv.1 ≠ buildTeamCounterKey teamId := by
    rw [hk]
    simp [buildQueueKey, buildTeamCounterKey]
  have hbase : kvGet kv.1 (counterAdd (buildTeamCounterKey teamId) (-1) (kvClear kv.1 s)) = none := by
    unfold counterAdd
    rw [kvGet_kvSet_ne _ _ _ _ h1]
    exact kvGet_kvClear_self kv.1 s
  have httl : ∀ (st : Store), kvGet kv.1 st = none →
      kvGet kv.1 (match kv.2.timesOutAt with
        | some t => if (t != 0) = true then kvClear (buildTTLIndexKey t teamId kv.2.id) st else st
        | none => st) = none := by
    intro st hst
    split
    · split
      · exact kvGet_kvClear_none _ _ _ hst
      · exact hst
    · exact hst
  simp only [removeOneJob]
  split
  · rename_i cid heq
    split
    · have h2 : kv.1 ≠ buildCrawlCounterKey cid := by
        rw [hk]
        simp [buildQueueKey, buildCrawlCounterKey]
      unfold counterAdd
      rw [kvGet_kvSet_ne _ _ _ _ h2]
      exact kvGet_kvClear_none _ _ _ (httl _ hbase)
    · exact httl _ hbase
  · exact httl _ hbase

/-- C2, amended: a pop claim attempt writes no versionstamped claim record.
The phase 3 removal transaction of popNextJob arbitrates by presence alone:
with a selected queue entry and no expired candidates, the worker wins
(result found) iff the re-read finds the entry still present, in which case
the entry is cleared in the same transaction; otherwise the result is
job_gone.  No key of the resulting store carries a versionstamp when none did
before. -/
theorem spec_c2_amended (s : Store) (teamId : String) (kv : TupleKey × FDBQueueJob)
    (hq : ∃ t p c j, kv.1 = buildQueueKey t p c j)
    (hno : ∀ e ∈ s, specHasVersionstamp e.1 = false) :
    ((removalTxn teamId ⟨[], some kv, 0⟩ s).1 = PopTxResult.found kv.2 ↔
      (kvGet kv.1 s).isSome = true) ∧
    ((removalTxn teamId ⟨[], some kv, 0⟩ s).1 = PopTxResult.jobGone ↔
      kvGet kv.1 s = none) ∧
    kvGet kv.1 (removalTxn teamId ⟨[], some kv, 0⟩ s).2 = none ∧
    (∀ e ∈ (removalTxn teamId ⟨[], some kv, 0⟩ s).2, specHasVersionstamp e.1 = false) := by
  have hclear : clearExpired teamId [] s = s := rfl
  by_cases hp : (kvGet kv.1 s).isSome = true
  · have htx : removalTxn teamId ⟨[], some kv, 0⟩ s =
        (PopTxResult.found kv.2, removeOneJob teamId kv s) := by
      unfold removalTxn
      rw [hclear]
      simp [hp]
    rw [htx]
    refine ⟨by simp [hp], ?_, ?_, ?_⟩
    · constructor
      · intro hcon
        cases hcon
      · intro hcon
        rw [hcon] at hp
        simp at hp
    · exact kvGet_removeOneJob_self teamId kv s hq
    · intro e he
      rcases mem_removeOneJob teamId kv e s he with h1 | h1 | ⟨c, h1⟩
      · exact hno e h1
      · rw [h1]
        simp [specHasVersionstamp, buildTeamCounterKey, counterPfx, counterTeam]
      · rw [h1]
        simp [specHasVersionstamp, buildCrawlCounterKey, counterPfx, counterCrawl]
  · have hnone : kvGet kv.1 s = none := by
      rcases hg : kvGet kv.1 s with _ | v
      · rfl
      · rw [hg] at hp
        simp at hp
    have htx : removalTxn teamId ⟨[], some kv, 0⟩ s = (PopTxResult.jobGone, s) := by
      unfold removalTxn
      rw [hclear]
      simp [hnone]
    rw [htx]
    refine ⟨?_, by simp [hnone], hnone, hno⟩
    constructor
    · intro hcon
      cases hcon
    · intro hcon
      rw [hnone] at hcon
      simp at hcon

/-- Witness for the amended C2: on the store with one available job, the
removal transaction wins by presence and clears the entry. -/
theorem spec_c2_amended_witness :
    (removalTxn "t1" ⟨[], some (buildQueueKey "t1" 5 1000 "j1", jobARecord), 0⟩
      storeOneJob).1 = PopTxResult.found jobARecord ∧
    kvGet (buildQueueKey "t1" 5 1000 "j1")
      (removalTxn "t1" ⟨[], some (buildQueueKey "t1" 5 1000 "j1", jobARecord), 0⟩
        storeOneJob).2 = none := by
  have h := spec_c2_amended storeOneJob "t1" (buildQueueKey "t1" 5 1000 "j1", jobARecord)
    ⟨"t1", 5, 1000, "j1", rfl⟩ (by decide)
  exact ⟨h.1.mpr (by decide), h.2.2.1⟩

/-- Reading the team queue counter is reading its counter key. -/
theorem getTeamQueueCount_counterGet (s : Store) (t : String) :
    getTeamQueueCount s t = counterGet (buildTeamCounterKey t) s := rfl

/-- Reading the crawl queue counter is reading its counter key. -/
theorem getCrawlQueueCount_counterGet (s : Store) (c : String) :
    getCrawlQueueCount s c = counterGet (buildCrawlCounterKey c) s := rfl

/-- C3, amended: pushJob writes the queue entry and increments the team queue
counter by one; it writes the TTL index entry at created_at + timeout_ms iff
the crawl id is not JavaScript-truthy (absent or the empty string) and
0 < timeout_ms < Number.MAX_SAFE_INTEGER; and when a crawl id is supplied it
writes the crawl index entry and increments the crawl queue counter iff that
crawl id is non-empty.  The hypotheses say the run happens at a non-negative
clock and the written index keys are fresh. -/
theorem spec_c3_amended (s : Store) (teamId : String) (job : PushJobInput)
    (timeout : Int) (crawlId : Option String) (now : Int)
    (hnow : 0 ≤ now)
    (httl : kvGet (buildTTLIndexKey (now + timeout) teamId job.id) s = none)
    (hcix : ∀ cid, crawlId = some cid → kvGet (buildCrawlIndexKey cid job.id) s = none) :
    (kvGet (buildQueueKey teamId job.priority now job.id)
      (pushJob s teamId job timeout crawlId now)).isSome = true ∧
    getTeamQueueCount (pushJob s teamId job timeout crawlId now) teamId =
      getTeamQueueCount s teamId + 1 ∧
    ((kvGet (buildTTLIndexKey (now + timeout) teamId job.id)
        (pushJob s teamId job timeout crawlId now)).isSome = true ↔
      ((crawlId = none ∨ crawlId = some "") ∧ 0 < timeout ∧ timeout < MAX_SAFE_INTEGER)) ∧
    (∀ cid, crawlId = some cid →
      ((kvGet (buildCrawlIndexKey cid job.id)
          (pushJob s teamId job timeout crawlId now)).isSome = true ↔ cid ≠ "") ∧
      getCrawlQueueCount (pushJob s teamId job timeout crawlId now) cid =
        getCrawlQueueCount s cid + (if cid = "" then 0 else 1)) := by
  simp only [buildTTLIndexKey, ttlIdxPfx] at httl
  rcases crawlId with _ | cid
  · by_cases h1 : 0 < timeout
    · by_cases h2 : timeout < MAX_SAFE_INTEGER
      · have hne : now + timeout ≠ 0 := by omega
        refine ⟨?_, ?_, ?_, ?_⟩
        · simp [pushJob, strTruthy, h1, h2, hne, kvGet_kvSet_self, kvGet_kvSet_ne,
            counterAdd, buildQueueKey, buildTTLIndexKey, buildTeamCounterKey,
            queuePfx, ttlIdxPfx, counterPfx, counterTeam]
        · simp [pushJob, strTruthy, h1, h2, hne, getTeamQueueCount_counterGet,
            counterGet_kvSet_ne, counterGet_counterAdd_self,
            buildQueueKey, buildTTLIndexKey, buildTeamCounterKey,
            queuePfx, ttlIdxPfx, counterPfx, counterTeam]
        · simp [pushJob, strTruthy, h1, h2, hne, kvGet_kvSet_self,
            buildTTLIndexKey, ttlIdxPfx]
        · intro cid heq
          cases heq
      · refine ⟨?_, ?_, ?_, ?_⟩
        · simp [pushJob, strTruthy, h2, kvGet_kvSet_self, kvGet_kvSet_ne,
            counterAdd, buildQueueKey, buildTeamCounterKey,
            queuePfx, counterPfx, counterTeam]
        · simp [pushJob, strTruthy, h2, getTeamQueueCount_counterGet,
            counterGet_kvSet_ne, counterGet_counterAdd_self,
            buildQueueKey, buildTeamCounterKey, queuePfx, counterPfx, counterTeam]
        · simp [pushJob, strTruthy, h2, httl, kvGet_kvSet_ne, counterAdd,
            buildQueueKey, buildTTLIndexKey, buildTeamCounterKey,
            queuePfx, ttlIdxPfx, counterPfx, counterTeam]
        · intro cid heq
          cases heq
    · refine ⟨?_, ?_, ?_, ?_⟩
      · simp [pushJob, strTruthy, h1, kvGet_kvSet_self, kvGet_kvSet_ne,
          counterAdd, buildQueueKey, buildTeamCounterKey,
          queuePfx, counterPfx, counterTeam]
      · simp [pushJob, strTruthy, h1, getTeamQueueCount_counterGet,
          counterGet_kvSet_ne, counterGet_counterAdd_self,
          buildQueueKey, buildTeamCounterKey, queuePfx, counterPfx, counterTeam]
      · simp [pushJob, strTruthy, h1, httl, kvGet_kvSet_ne, counterAdd,
          buildQueueKey, buildTTLIndexKey, buildTeamCounterKey,
          queuePfx, ttlIdxPfx, counterPfx, counterTeam]
      · intro cid heq
        cases heq
  · by_cases hcE : cid = ""
    · subst hcE
      by_cases h1 : 0 < timeout
      · by_cases h2 : timeout < MAX_SAFE_INTEGER
        · have hne : now + timeout ≠ 0 := by omega
          refine ⟨?_, ?_, ?_, ?_⟩
          · simp [pushJob, strTruthy, h1, h2, hne, kvGet_kvSet_self, kvGet_kvSet_ne,
              counterAdd, buildQueueKey, buildTTLIndexKey, buildTeamCounterKey,
              queuePfx, ttlIdxPfx, counterPfx, counterTeam]
          · simp [pushJob, strTruthy, h1, h2, hne, getTeamQueueCount_counterGet,
              counterGet_kvSet_ne, counterGet_counterAdd_self,
              buildQueueKey, buildTTLIndexKey, buildTeamCounterKey,
              queuePfx, ttlIdxPfx, counterPfx, counterTeam]
          · simp [pushJob, strTruthy, h1, h2, hne, kvGet_kvSet_self,
              buildTTLIndexKey, ttlIdxPfx]
          · intro cid heq
            obtain rfl : cid = "" := by injection heq with hh; rw [hh]
            refine ⟨?_, ?_⟩
            · have hcf := hcix "" rfl
              simp only [buildCrawlIndexKey, crawlIdxPfx] at hcf
              simp [pushJob, strTruthy, h1, h2, hne, hcf, kvGet_kvSet_ne,
                counterAdd, buildQueueKey, buildTTLIndexKey, buildCrawlIndexKey,
                buildTeamCounterKey, queuePfx, ttlIdxPfx, crawlIdxPfx,
                counterPfx, counterTeam]
            · simp [pushJob, strTruthy, h1, h2, hne, getCrawlQueueCount_counterGet,
                counterGet_kvSet_ne, counterGet_counterAdd_ne, buildQueueKey,
                buildTTLIndexKey, buildTeamCounterKey, buildCrawlCounterKey,
                queuePfx, ttlIdxPfx, counterPfx, counterTeam, counterCrawl]
        · refine ⟨?_, ?_, ?_, ?_⟩
          · simp [pushJob, strTruthy, h2, kvGet_kvSet_self, kvGet_kvSet_ne,
              counterAdd, buildQueueKey, buildTeamCounterKey,
              queuePfx, counterPfx, counterTeam]
          · simp [pushJob, strTruthy, h2, getTeamQueueCount_counterGet,
              counterGet_kvSet_ne, counterGet_counterAdd_self,
              buildQueueKey, buildTeamCounterKey, queuePfx, counterPfx, counterTeam]
          · simp [pushJob, strTruthy, h2, httl, kvGet_kvSet_ne, counterAdd,
              buildQueueKey, buildTTLIndexKey, buildTeamCounterKey,
              queuePfx, ttlIdxPfx, counterPfx, counterTeam]
          · intro cid heq
            obtain rfl : cid = "" := by injection heq with hh; rw [hh]
            refine ⟨?_, ?_⟩
            · have hcf := hcix "" rfl
              simp only [buildCrawlIndexKey, crawlIdxPfx] at hcf
              simp [pushJob, strTruthy, h2, hcf, kvGet_kvSet_ne,
                counterAdd, buildQueueKey, buildCrawlIndexKey,
                buildTeamCounterKey, queuePfx, crawlIdxPfx, counterPfx, counterTeam]
            · simp [pushJob, strTruthy, h2, getCrawlQueueCount_counterGet,
                counterGet_kvSet_ne, counterGet_counterAdd_ne, buildQueueKey,
                buildTeamCounterKey, buildCrawlCounterKey, queuePfx, counterPfx,
                counterTeam, counterCrawl]
      · refine ⟨?_, ?_, ?_, ?_⟩
        · simp [pushJob, strTruthy, h1, kvGet_kvSet_self, kvGet_kvSet_ne,
            counterAdd, buildQueueKey, buildTeamCounterKey,
            queuePfx, counterPfx, counterTeam]
        · simp [pushJob, strTruthy, h1, getTeamQueueCount_counterGet,
            counterGet_kvSet_ne, counterGet_counterAdd_self,
            buildQueueKey, buildTeamCounterKey, queuePfx, counterPfx, counterTeam]
        · simp [pushJob, strTruthy, h1, httl, kvGet_kvSet_ne, counterAdd,
            buildQueueKey, buildTTLIndexKey, buildTeamCounterKey,
            queuePfx, ttlIdxPfx, counterPfx, counterTeam]
        · intro cid heq
          obtain rfl : cid = "" := by injection heq with hh; rw [hh]
          refine ⟨?_, ?_⟩
          · have hcf := hcix "" rfl
            simp only [buildCrawlIndexKey, crawlIdxPfx] at hcf
            simp [pushJob, strTruthy, h1, hcf, kvGet_kvSet_ne,
              counterAdd, buildQueueKey, buildCrawlIndexKey,
              buildTeamCounterKey, queuePfx, crawlIdxPfx, counterPfx, counterTeam]
          · simp [pushJob, strTruthy, h1, getCrawlQueueCount_counterGet,
              counterGet_kvSet_ne, counterGet_counterAdd_ne, buildQueueKey,
              buildTeamCounterKey, buildCrawlCounterKey, queuePfx, counterPfx,
              counterTeam, counterCrawl]
    · refine ⟨?_, ?_, ?_, ?_⟩
      · simp [pushJob, strTruthy, hcE, kvGet_kvSet_self, kvGet_kvSet_ne,
          counterAdd, buildQueueKey, buildTeamCounterKey, buildCrawlIndexKey,
          buildCrawlCounterKey, queuePfx, counterPfx, counterTeam, counterCrawl,
          crawlIdxPfx]
      · simp [pushJob, strTruthy, hcE, getTeamQueueCount_counterGet,
          counterGet_kvSet_ne, counterGet_counterAdd_self, counterGet_counterAdd_ne,
          buildQueueKey, buildTeamCounterKey, buildCrawlIndexKey,
          buildCrawlCounterKey, queuePfx, counterPfx, counterTeam, counterCrawl,
          crawlIdxPfx]
      · simp [pushJob, strTruthy, hcE, httl, kvGet_kvSet_ne, counterAdd,
          buildQueueKey, buildTTLIndexKey, buildTeamCounterKey, buildCrawlIndexKey,
          buildCrawlCounterKey, queuePfx, ttlIdxPfx, crawlIdxPfx,
          counterPfx, counterTeam, counterCrawl]
      · intro cid2 heq
        obtain rfl : cid2 = cid := by injection heq with hh; rw [hh]
        refine ⟨?_, ?_⟩
        · simp [pushJob, strTruthy, hcE, kvGet_kvSet_self, kvGet_kvSet_ne,
            counterAdd, buildQueueKey, buildTeamCounterKey, buildCrawlIndexKey,
            buildCrawlCounterKey, queuePfx, counterPfx, counterTeam, counterCrawl,
            crawlIdxPfx]
        · simp [pushJob, strTruthy, hcE, getCrawlQueueCount_counterGet,
            counterGet_kvSet_ne, counterGet_counterAdd_self, counterGet_counterAdd_ne,
            buildQueueKey, buildTeamCounterKey, buildCrawlIndexKey,
            buildCrawlCounterKey, queuePfx, counterPfx, counterTeam, counterCrawl,
            crawlIdxPfx]

/-- Witness for the amended C3: pushing one plain job into the empty store at
time 1000 with timeout 60000 creates the queue entry and counter 1. -/
theorem spec_c3_amended_witness :
    (kvGet (buildQueueKey "t1" jobA.priority 1000 jobA.id)
      (pushJob [] "t1" jobA 60000 none 1000)).isSome = true ∧
    getTeamQueueCount (pushJob [] "t1" jobA 60000 none 1000) "t1" =
      getTeamQueueCount ([] : Store) "t1" + 1 :=
  have h := spec_c3_amended [] "t1" jobA 60000 none 1000 (by decide) rfl
    (fun _ hcid => by cases hcid)
  ⟨h.1, h.2.1⟩

/-- C6: the circuit breaker opens after exactly 3 consecutive recorded
failures from the closed state with a clean failure count; while open and
within the 5000 ms window every checkCircuit call fails fast with the
circuit-open error; once 5000 ms have elapsed since opening the next
checkCircuit call transitions to half-open; in half-open a single success
closes the breaker and resets the failure count, and a single failure reopens
it, stamping the opening time. -/
theorem spec_c6_circuit_breaker (o h : BreakerState) (t now t1 t2 t3 : Int)
    (ho : o.circuitState = CircuitState.opened)
    (hh : h.circuitState = CircuitState.halfOpen) :
    (recordFailures ⟨CircuitState.closed, t, 0⟩ [t1]).circuitState = CircuitState.closed ∧
    (recordFailures ⟨CircuitState.closed, t, 0⟩ [t1, t2]).circuitState = CircuitState.closed ∧
    (recordFailures ⟨CircuitState.closed, t, 0⟩ [t1, t2, t3]).circuitState =
      CircuitState.opened ∧
    (recordFailures ⟨CircuitState.closed, t, 0⟩ [t1, t2, t3]).circuitOpenedAt = t3 ∧
    (now - o.circuitOpenedAt < CIRCUIT_OPEN_DURATION_MS →
      checkCircuit o now = CircuitCheck.circuitOpenError) ∧
    (CIRCUIT_OPEN_DURATION_MS ≤ now - o.circuitOpenedAt →
      checkCircuit o now = CircuitCheck.proceed { o with circuitState := CircuitState.halfOpen }) ∧
    recordSuccess h = { h with circuitState := CircuitState.closed, consecutiveFailures := 0 } ∧
    (recordFailure h now).circuitState = CircuitState.opened ∧
    (recordFailure h now).circuitOpenedAt = now := by
  obtain ⟨oc, oa, onf⟩ := o
  obtain ⟨hc, ha, hnf⟩ := h
  simp only [BreakerState.mk.injEq] at ho hh ⊢
  subst ho
  subst hh
  refine ⟨?_, ?_, ?_, ?_, ?_, ?_, ?_, ?_, ?_⟩
  · simp [recordFailures, recordFailure, CIRCUIT_FAILURE_THRESHOLD]
  · simp [recordFailures, recordFailure, CIRCUIT_FAILURE_THRESHOLD]
  · simp [recordFailures, recordFailure, CIRCUIT_FAILURE_THRESHOLD]
  · simp [recordFailures, recordFailure, CIRCUIT_FAILURE_THRESHOLD]
  · intro h5
    simp [checkCircuit, not_le.mpr h5]
  · intro h5
    simp [checkCircuit, h5]
  · simp [recordSuccess]
  · simp [recordFailure]
  · simp [recordFailure]

/-- Witness for C6: concrete breaker states exercising the open fail-fast
path and the three-failure opening. -/
theorem spec_c6_circuit_breaker_witness :
    checkCircuit ⟨CircuitState.opened, 0, 3⟩ 100 = CircuitCheck.circuitOpenError ∧
    (recordFailures ⟨CircuitState.closed, 0, 0⟩ [1, 2, 3]).circuitState =
      CircuitState.opened ∧
    recordSuccess ⟨CircuitState.halfOpen, 0, 3⟩ =
      { circuitState := CircuitState.closed, circuitOpenedAt := 0,
        consecutiveFailures := 0 } := by
  have h := spec_c6_circuit_breaker ⟨CircuitState.opened, 0, 3⟩
    ⟨CircuitState.halfOpen, 0, 3⟩ 0 100 1 2 3 rfl rfl
  exact ⟨h.2.2.2.2.1 (by decide), h.2.2.1, h.2.2.2.2.2.2.1⟩

/-
Lemmas about the acquireBlocking retry loop.
-/

/-- Characterization of a successful acquireBlockingLoop run: the grant
happens at attempt index i + m after m refused attempts, the result counts
tr + m + 1 attempts, and the limited flag is the incoming failedOnce flag or
the existence of a refused attempt. -/
theorem acqLoop_granted (deadline maxDelay : Int) (env : Nat → AcqEnv) :
    ∀ (fuel : Nat) (delay : Int) (f0 : Bool) (tr i : Nat) (l : Bool) (r : Nat),
      acquireBlockingLoop deadline maxDelay env delay f0 tr i fuel =
        some (AcqResult.granted l r) →
      ∃ m, r = tr + m + 1 ∧
        (env (i + m)).granted = true ∧ (env (i + m)).aborted = false ∧
        (env (i + m)).now ≤ deadline ∧
        (∀ j, j < m → (env (i + j)).granted = false ∧ (env (i + j)).aborted = false ∧
          (env (i + j)).now ≤ deadline) ∧
        l = (f0 || decide (0 < m)) := by
  intro fuel
  induction fuel with
  | zero =>
    intro delay f0 tr i l r hrun
    cases hrun
  | succ fuel ih =>
    intro delay f0 tr i l r hrun
    simp only [acquireBlockingLoop] at hrun
    by_cases ha : (env i).aborted = true
    · simp [ha] at hrun
    · by_cases hd : deadline < (env i).now
      · simp [ha, hd] at hrun
      · by_cases hg : (env i).granted = true
        · simp [ha, hd, hg] at hrun
          refine ⟨0, by omega, by simpa using hg, by simpa using ha,
            not_lt.mp hd, fun j hj => absurd hj (Nat.not_lt_zero j), ?_⟩
          simp [hrun.1.symm]
        · simp only [if_neg (by simpa using ha : ¬((env i).aborted = true)), if_neg hd,
            if_neg (by simpa using hg : ¬((env i).granted = true))] at hrun
          obtain ⟨m, hr, hgm, ham, hdm, hpre, hl⟩ :=
            ih (nextDelay maxDelay delay) true (tr + 1) (i + 1) l r hrun
          refine ⟨m + 1, by omega, ?_, ?_, ?_, ?_, ?_⟩
          · have he : i + (m + 1) = i + 1 + m := by omega
            rw [he]
            exact hgm
          · have he : i + (m + 1) = i + 1 + m := by omega
            rw [he]
            exact ham
          · have he : i + (m + 1) = i + 1 + m := by omega
            rw [he]
            exact hdm
          · intro j hj
            cases j with
            | zero =>
              exact ⟨by simpa using hg, by simpa using ha,
                not_lt.mp hd⟩
            | succ j2 =>
              have he : i + (j2 + 1) = i + 1 + j2 := by omega
              rw [he]
              exact hpre j2 (by omega)
          · rw [hl]
            simp
  
/-- A refused or passed attempt before the trigger point keeps the loop
running, and a fired signal or passed deadline at the trigger point produces
the timeout failure. -/
theorem acqLoop_timeout (deadline maxDelay : Int) (env : Nat → AcqEnv) :
    ∀ (fuel : Nat) (delay : Int) (f0 : Bool) (tr i0 i : Nat),
      i0 ≤ i → i - i0 < fuel →
      (∀ j, i0 ≤ j → j < i → (env j).aborted = false ∧ (env j).now ≤ deadline ∧
        (env j).granted = false) →
      ((env i).aborted = true ∨ deadline < (env i).now) →
      acquireBlockingLoop deadline maxDelay env delay f0 tr i0 fuel =
        some AcqResult.timedOut := by
  intro fuel
  induction fuel with
  | zero =>
    intro delay f0 tr i0 i hle hfuel hpre htrig
    omega
  | succ fuel ih =>
    intro delay f0 tr i0 i hle hfuel hpre htrig
    simp only [acquireBlockingLoop]
    rcases eq_or_lt_of_le hle with heq | hlt
    · subst heq
      rcases htrig with ht | ht
      · simp [ht]
      · by_cases ha : (env i0).aborted = true
        · simp [ha]
        · simp [ha, ht]
    · obtain ⟨ha, hd, hg⟩ := hpre i0 le_rfl hlt
      rw [if_neg (by simp [ha]), if_neg (not_lt.mpr hd), if_neg (by simp [hg])]
      exact ih _ _ _ _ i (by omega) (by omega) (fun j hj1 hj2 => hpre j (by omega) hj2) htrig

/-- The loop result depends only on the aborted flag, the clock and the
granted flag of the environment, never on the script count or removed
fields. -/
theorem acqLoop_congr (deadline maxDelay : Int) (env env2 : Nat → AcqEnv)
    (hagree : ∀ j, (env2 j).aborted = (env j).aborted ∧ (env2 j).now = (env j).now ∧
      (env2 j).granted = (env j).granted) :
    ∀ (fuel : Nat) (delay : Int) (f0 : Bool) (tr i : Nat),
      acquireBlockingLoop deadline maxDelay env2 delay f0 tr i fuel =
        acquireBlockingLoop deadline maxDelay env delay f0 tr i fuel := by
  intro fuel
  induction fuel with
  | zero =>
    intro delay f0 tr i
    rfl
  | succ fuel ih =>
    intro delay f0 tr i
    simp only [acquireBlockingLoop]
    rw [(hagree i).1, (hagree i).2.1, (hagree i).2.2]
    by_cases ha : (env i).aborted = true
    · simp [ha]
    · by_cases hd : deadline < (env i).now
      · simp [ha, hd]
      · by_cases hg : (env i).granted = true
        · simp [ha, hd, hg]
        · rw [if_neg (by simp [ha]), if_neg hd, if_neg (by simp [hg]),
            if_neg (by simp [ha]), if_neg hd, if_neg (by simp [hg])]
          exact ih _ _ _ _

/-- C9: acquireBlocking fails with the timeout error whenever the cancel
signal has fired or the deadline has passed at the top of an iteration
reached before any grant, and on success the limited flag is true iff some
attempt during the call was refused. -/
theorem spec_c9_acquire_blocking (deadline baseDelay maxDelay : Int)
    (env : Nat → AcqEnv) (fuel i : Nat) (l : Bool) (r : Nat) (hfuel : i < fuel) :
    ((∀ j, j < i → (env j).aborted = false ∧ (env j).now ≤ deadline ∧
        (env j).granted = false) →
      ((env i).aborted = true ∨ deadline < (env i).now) →
      acquireBlocking deadline baseDelay maxDelay env fuel = some AcqResult.timedOut) ∧
    (acquireBlocking deadline baseDelay maxDelay env fuel =
        some (AcqResult.granted l r) →
      (l = true ↔ ∃ j, j < r - 1 ∧ (env j).granted = false)) := by
  constructor
  · intro hpre htrig
    exact acqLoop_timeout deadline maxDelay env fuel baseDelay false 0 0 i
      (Nat.zero_le i) (by omega) (fun j _ hj2 => hpre j hj2) htrig
  · intro hrun
    obtain ⟨m, hr, hgm, ham, hdm, hpre, hl⟩ :=
      acqLoop_granted deadline maxDelay env fuel baseDelay false 0 0 l r hrun
    have hr1 : r - 1 = m := by omega
    rw [hr1, hl]
    simp only [Bool.false_or]
    constructor
    · intro hm
      have hm2 : 0 < m := of_decide_eq_true hm
      exact ⟨0, hm2, by simpa using (hpre 0 hm2).1⟩
    · rintro ⟨j, hj, _⟩
      exact decide_eq_true_eq.mpr (by omega)

/-- Witness for C9: an environment whose first attempt is refused and whose
second is granted reports limited = true with removed = 2. -/
theorem spec_c9_acquire_blocking_witness :
    acquireBlocking 100 25 250 envGrantSecond 10 = some (AcqResult.granted true 2) ∧
    (true = true ↔ ∃ j, j < 2 - 1 ∧ (envGrantSecond j).granted = false) := by
  have h := spec_c9_acquire_blocking 100 25 250 envGrantSecond 10 0 true 2 (by omega)
  exact ⟨by decide, h.2 (by decide)⟩

/-- C10: on every successful return of acquireBlocking the removed field
counts the acquire attempts of the call: attempts 0 to removed - 2 were
executed and refused, attempt removed - 1 was executed and granted, removed
is at least 1, and the result is unchanged under any environment that agrees
on the signal, clock and granted flags while differing arbitrarily in the
script count and removed outputs, which the loop discards. -/
theorem spec_c10_removed_counts_attempts (deadline baseDelay maxDelay : Int)
    (env env2 : Nat → AcqEnv) (fuel : Nat) (l : Bool) (r : Nat)
    (hres : acquireBlocking deadline baseDelay maxDelay env fuel =
      some (AcqResult.granted l r))
    (hagree : ∀ j, (env2 j).aborted = (env j).aborted ∧ (env2 j).now = (env j).now ∧
      (env2 j).granted = (env j).granted) :
    1 ≤ r ∧ (env (r - 1)).granted = true ∧
    (∀ j, j < r - 1 → (env j).granted = false ∧ (env j).aborted = false ∧
      (env j).now ≤ deadline) ∧
    acquireBlocking deadline baseDelay maxDelay env2 fuel =
      some (AcqResult.granted l r) := by
  obtain ⟨m, hr, hgm, ham, hdm, hpre, hl⟩ :=
    acqLoop_granted deadline maxDelay env fuel baseDelay false 0 0 l r hres
  have hr1 : r - 1 = m := by omega
  refine ⟨by omega, ?_, ?_, ?_⟩
  · rw [hr1]
    simpa using hgm
  · intro j hj
    rw [hr1] at hj
    have hp := hpre j hj
    exact ⟨by simpa using hp.1, by simpa using hp.2.1, by simpa using hp.2.2⟩
  · unfold acquireBlocking
    rw [acqLoop_congr deadline maxDelay env env2 hagree fuel baseDelay false 0 0]
    exact hres

/-- Witness for C10: the concrete two-attempt environment returns removed = 2
and the result is unchanged when the script count and removed fields differ. -/
theorem spec_c10_removed_counts_attempts_witness :
    1 ≤ 2 ∧ (envGrantSecond (2 - 1)).granted = true ∧
    acquireBlocking 100 25 250 envGrantSecondAlt 10 = some (AcqResult.granted true 2) := by
  have h := spec_c10_removed_counts_attempts 100 25 250 envGrantSecond
    envGrantSecondAlt 10 true 2 (by decide) (fun j => by
      by_cases hj : j = 0
      · subst hj
        exact ⟨rfl, rfl, rfl⟩
      · simp [envGrantSecond, envGrantSecondAlt, hj])
  exact ⟨h.1, h.2.1, h.2.2.2⟩

/-
Lemmas about the TTL cleanup.
-/

/-- A queue key never selects as an expired TTL entry. -/
theorem expiredTTLp_queue (now : Int) (t : String) (p c : Int) (j : String) (v : Val) :
    expiredTTLp now (buildQueueKey t p c j, v) = false := by
  simp [expiredTTLp, isTTLKey, buildQueueKey]

/-- A team counter key never selects as an expired TTL entry. -/
theorem expiredTTLp_teamCounter (now : Int) (t : String) (v : Val) :
    expiredTTLp now (buildTeamCounterKey t, v) = false := by
  simp [expiredTTLp, isTTLKey, buildTeamCounterKey, counterTeam]

/-- A crawl counter key never selects as an expired TTL entry. -/
theorem expiredTTLp_crawlCounter (now : Int) (c : String) (v : Val) :
    expiredTTLp now (buildCrawlCounterKey c, v) = false := by
  simp [expiredTTLp, isTTLKey, buildCrawlCounterKey, counterCrawl]

/-- A crawl index key never selects as an expired TTL entry. -/
theorem expiredTTLp_crawlIndex (now : Int) (c j : String) (v : Val) :
    expiredTTLp now (buildCrawlIndexKey c j, v) = false := by
  simp [expiredTTLp, isTTLKey, buildCrawlIndexKey]

/-- Processing one TTL entry removes exactly its key from the expired TTL
entries: the queue and crawl index clears and the counter writes touch no
TTL-shaped key. -/
theorem expiredTTL_processTTLEntry (now : Int) (st : Store) (kv : TupleKey × Val) :
    expiredTTL now (processTTLEntry st kv) =
      (expiredTTL now st).filter (fun e => e.1 != kv.1) := by
  simp only [processTTLEntry]
  split
  · rename_i teamId jobId tv
    unfold expiredTTL
    rw [filter_kvClear]
    congr 1
    have hq : ∀ v', expiredTTLp now
        (buildQueueKey teamId tv.priority tv.createdAt jobId, v') = false :=
      fun v' => expiredTTLp_queue now teamId tv.priority tv.createdAt jobId v'
    have htc : ∀ v', expiredTTLp now (buildTeamCounterKey teamId, v') = false :=
      fun v' => expiredTTLp_teamCounter now teamId v'
    split
    · rename_i cid heq
      split
      · rw [counterAdd, filter_kvSet_of_none _ _ _ _
            (fun v' => expiredTTLp_crawlCounter now cid v'),
          filter_kvClear_of_none _ _ _
            (fun v' => expiredTTLp_crawlIndex now cid jobId v'),
          counterAdd, filter_kvSet_of_none _ _ _ _ htc,
          filter_kvClear_of_none _ _ _ hq]
      · rw [counterAdd, filter_kvSet_of_none _ _ _ _ htc,
          filter_kvClear_of_none _ _ _ hq]
    · rw [counterAdd, filter_kvSet_of_none _ _ _ _ htc,
        filter_kvClear_of_none _ _ _ hq]
  · unfold expiredTTL
    rw [filter_kvClear]

/-- Processing the first expired TTL entry leaves exactly the remaining
expired entries, when the expired keys are distinct. -/
theorem expiredTTL_processTTLEntry_head (now : Int) (st : Store)
    (kv : TupleKey × Val) (rest : List (TupleKey × Val))
    (hE : expiredTTL now st = kv :: rest)
    (hnd : ((kv :: rest).map Prod.fst).Nodup) :
    expiredTTL now (processTTLEntry st kv) = rest := by
  rw [expiredTTL_processTTLEntry, hE, List.filter_cons]
  simp only [bne_self_eq_false, Bool.false_eq_true, if_false]
  apply List.filter_eq_self.mpr
  intro e he
  have hnd2 : (kv.1 :: rest.map Prod.fst).Nodup := by simpa using hnd
  have hne : e.1 ≠ kv.1 := by
    intro hcon
    exact (List.nodup_cons.mp hnd2).1 (List.mem_map.mpr ⟨e, he, hcon⟩)
  simpa using hne

/-- Processing a prefix of the expired TTL entries leaves the remaining
suffix. -/
theorem expiredTTL_processList (now : Int) :
    ∀ (l rest : List (TupleKey × Val)) (st : Store),
      expiredTTL now st = l ++ rest →
      (((l ++ rest).map Prod.fst).Nodup) →
      expiredTTL now (processList l st) = rest := by
  intro l
  induction l with
  | nil =>
    intro rest st hE _
    simpa [processList] using hE
  | cons kv l2 ih =>
    intro rest st hE hnd
    have hstep : expiredTTL now (processTTLEntry st kv) = l2 ++ rest := by
      apply expiredTTL_processTTLEntry_head now st kv (l2 ++ rest) (by simpa using hE)
      simpa using hnd
    have hnd1 : (kv.1 :: (l2 ++ rest).map Prod.fst).Nodup := by simpa using hnd
    have hnd2 : ((l2 ++ rest).map Prod.fst).Nodup := hnd1.of_cons
    have hfold : processList (kv :: l2) st = processList l2 (processTTLEntry st kv) := rfl
    rw [hfold]
    exact ih rest (processTTLEntry st kv) hstep hnd2

/-- Every entry after processing one TTL entry is an old entry or a team or
crawl counter update. -/
theorem mem_processTTLEntry (st : Store) (kv e : TupleKey × Val)
    (he : e ∈ processTTLEntry st kv) :
    e ∈ st ∨ (∃ t, e.1 = buildTeamCounterKey t) ∨ ∃ c, e.1 = buildCrawlCounterKey c := by
  have hstep : ∀ (t2 : String) (st2 : Store),
      e ∈ counterAdd (buildTeamCounterKey t2) (-1) st2 →
      e ∈ st2 ∨ (∃ t, e.1 = buildTeamCounterKey t) ∨ ∃ c, e.1 = buildCrawlCounterKey c := by
    intro t2 st2 hm
    rcases mem_of_mem_kvSet _ _ _ _ hm with h1 | h1
    · exact Or.inr (Or.inl ⟨t2, by rw [h1]⟩)
    · exact Or.inl h1
  simp only [processTTLEntry] at he
  split at he
  · rename_i teamId jobId tv
    have he2 := mem_of_mem_kvClear _ _ _ he
    split at he2
    · rename_i cid heq
      split at he2
      · rcases mem_of_mem_kvSet _ _ _ _ he2 with h1 | h1
        · exact Or.inr (Or.inr ⟨cid, by rw [h1]⟩)
        · rcases hstep teamId _ (mem_of_mem_kvClear _ _ _ h1) with h2 | h2 | h2
          · exact Or.inl (mem_of_mem_kvClear _ _ _ h2)
          · exact Or.inr (Or.inl h2)
          · exact Or.inr (Or.inr h2)
      · rcases hstep teamId _ he2 with h2 | h2 | h2
        · exact Or.inl (mem_of_mem_kvClear _ _ _ h2)
        · exact Or.inr (Or.inl h2)
        · exact Or.inr (Or.inr h2)
    · rcases hstep teamId _ he2 with h2 | h2 | h2
      · exact Or.inl (mem_of_mem_kvClear _ _ _ h2)
      · exact Or.inr (Or.inl h2)
      · exact Or.inr (Or.inr h2)
  · exact Or.inl (mem_of_mem_kvClear _ _ _ he)

/-- Team counter keys are well-formed. -/
theorem wfKey_teamCounter (t : String) : wfKey (buildTeamCounterKey t) = true := by
  simp [wfKey, buildTeamCounterKey, counterPfx, counterTeam]

/-- Crawl counter keys are well-formed. -/
theorem wfKey_crawlCounter (c : String) : wfKey (buildCrawlCounterKey c) = true := by
  simp [wfKey, buildCrawlCounterKey, counterPfx, counterCrawl]

/-- Team counter keys are not TTL keys. -/
theorem isTTLKey_teamCounter (t : String) : isTTLKey (buildTeamCounterKey t) = false := by
  simp [isTTLKey, buildTeamCounterKey, counterTeam]

/-- Crawl counter keys are not TTL keys. -/
theorem isTTLKey_crawlCounter (c : String) : isTTLKey (buildCrawlCounterKey c) = false := by
  simp [isTTLKey, buildCrawlCounterKey, counterCrawl]

/-- Processing a list of TTL entries keeps all keys well-formed. -/
theorem wfKeys_processList (l : List (TupleKey × Val)) :
    ∀ (st : Store), (∀ e ∈ st, wfKey e.1 = true) →
      ∀ e ∈ processList l st, wfKey e.1 = true := by
  induction l with
  | nil => intro st hwf e he; exact hwf e he
  | cons kv l2 ih =>
    intro st hwf e he
    refine ih (processTTLEntry st kv) ?_ e he
    intro e2 he2
    rcases mem_processTTLEntry st kv e2 he2 with h1 | ⟨t, h1⟩ | ⟨c, h1⟩
    · exact hwf e2 h1
    · rw [h1]
      exact wfKey_teamCounter t
    · rw [h1]
      exact wfKey_crawlCounter c

/-- Processing a list of TTL entries keeps TTL values well-typed. -/
theorem hvals_processList (l : List (TupleKey × Val)) :
    ∀ (st : Store), (∀ e ∈ st, isTTLKey e.1 = true → ∃ tv, e.2 = Val.ttlVal tv) →
      ∀ e ∈ processList l st, isTTLKey e.1 = true → ∃ tv, e.2 = Val.ttlVal tv := by
  induction l with
  | nil => intro st hv e he; exact hv e he
  | cons kv l2 ih =>
    intro st hv e he
    refine ih (processTTLEntry st kv) ?_ e he
    intro e2 he2 hk
    rcases mem_processTTLEntry st kv e2 he2 with h1 | ⟨t, h1⟩ | ⟨c, h1⟩
    · exact hv e2 h1 hk
    · rw [h1] at hk
      rw [isTTLKey_teamCounter t] at hk
      cases hk
    · rw [h1] at hk
      rw [isTTLKey_crawlCounter c] at hk
      cases hk

/-- One cleanup batch scans and processes the first 100 expired TTL entries. -/
theorem cleanBatch_eq (now : Int) (st : Store) (hwf : ∀ e ∈ st, wfKey e.1 = true) :
    cleanBatch now st = (((expiredTTL now st).take 100).length,
      processList ((expiredTTL now st).take 100) st) := by
  unfold cleanBatch
  rw [ttl_range_eq now st hwf]
  rfl

/-- The batch loop of cleanExpiredJobs drains min(expired, 100 * batches)
entries and its store is the fold of processing that prefix. -/
theorem cleanLoop_spec (now : Int) :
    ∀ (b acc : Nat) (st : Store), (∀ e ∈ st, wfKey e.1 = true) →
      ((expiredTTL now st).map Prod.fst).Nodup →
      cleanLoop now b acc st =
        (acc + min (expiredTTL now st).length (100 * b),
          processList ((expiredTTL now st).take (100 * b)) st) := by
  intro b
  induction b with
  | zero =>
    intro acc st hwf hnd
    simp [cleanLoop, processList]
  | succ b ih =>
    intro acc st hwf hnd
    have hE := cleanBatch_eq now st hwf
    by_cases hlen : (expiredTTL now st).length < 100
    · have htake : (expiredTTL now st).take 100 = expiredTTL now st :=
        List.take_of_length_le (by omega)
      have hcond : (((expiredTTL now st).take 100).length) < 100 := by
        rw [htake]
        exact hlen
      simp only [cleanLoop, hE]
      rw [if_pos hcond, htake]
      have h2 : (expiredTTL now st).take (100 * (b + 1)) = expiredTTL now st :=
        List.take_of_length_le (by omega)
      rw [h2]
      have h3 : min (expiredTTL now st).length (100 * (b + 1)) =
          (expiredTTL now st).length := by omega
      rw [h3]
    · have hlen2 : ((expiredTTL now st).take 100).length = 100 := by
        rw [List.length_take]
        omega
      have hcond : ¬(((expiredTTL now st).take 100).length < 100) := by omega
      simp only [cleanLoop, hE]
      rw [if_neg hcond]
      set st2 := processList ((expiredTTL now st).take 100) st with hst2
      have hE2 : expiredTTL now st2 = (expiredTTL now st).drop 100 := by
        apply expiredTTL_processList now ((expiredTTL now st).take 100)
          ((expiredTTL now st).drop 100) st
        · rw [List.take_append_drop]
        · rw [List.take_append_drop]
          exact hnd
      have hwf2 : ∀ e ∈ st2, wfKey e.1 = true :=
        wfKeys_processList _ st hwf
      have hnd2 : ((expiredTTL now st2).map Prod.fst).Nodup := by
        rw [hE2]
        have hsub : ((expiredTTL now st).drop 100).map Prod.fst =
            ((expiredTTL now st).map Prod.fst).drop 100 := by
          rw [List.map_drop]
        rw [hsub]
        exact hnd.sublist (List.drop_sublist _ _)
      rw [ih (acc + ((expiredTTL now st).take 100).length) st2 hwf2 hnd2]
      rw [hE2, hlen2]
      simp only [Prod.mk.injEq]
      constructor
      · rw [List.length_drop]
        omega
      · have hsplit : 100 * (b + 1) = 100 + 100 * b := by ring
        rw [hsplit, List.take_add, hst2]
        unfold processList
        rw [List.foldl_append]

/-- Shape of a TTL key. -/
theorem isTTLKey_shape (k : TupleKey) (h : isTTLKey k = true) :
    ∃ e t j, k = buildTTLIndexKey e t j := by
  unfold isTTLKey at h
  split at h
  · rename_i p e t j
    exact ⟨e, t, j, by rw [buildTTLIndexKey, eq_of_beq h]⟩
  · cases h

/-- Unfolding of processTTLEntry on a well-shaped TTL entry. -/
theorem processTTLEntry_ttl_eq (st : Store) (ex : Int) (tx jx : String) (tv : TTLValue) :
    processTTLEntry st (buildTTLIndexKey ex tx jx, Val.ttlVal tv) =
      kvClear (buildTTLIndexKey ex tx jx)
        (match tv.crawlId with
         | some cid =>
           if (cid != "") = true then
             counterAdd (buildCrawlCounterKey cid) (-1)
               (kvClear (buildCrawlIndexKey cid jx)
                 (counterAdd (buildTeamCounterKey tx) (-1)
                   (kvClear (buildQueueKey tx tv.priority tv.createdAt jx) st)))
           else
             counterAdd (buildTeamCounterKey tx) (-1)
               (kvClear (buildQueueKey tx tv.priority tv.createdAt jx) st)
         | none =>
           counterAdd (buildTeamCounterKey tx) (-1)
             (kvClear (buildQueueKey tx tv.priority tv.createdAt jx) st)) := rfl

/-- A TTL entry with a different key survives the processing of an entry. -/
theorem mem_processTTLEntry_of_ttl (st : Store) (e kv : TupleKey × Val)
    (hm : kv ∈ st) (hk : isTTLKey kv.1 = true) (hne : kv.1 ≠ e.1) :
    kv ∈ processTTLEntry st e := by
  obtain ⟨ex, tx, jx, hks⟩ := isTTLKey_shape kv.1 hk
  have hq : ∀ t p c j, kv.1 ≠ buildQueueKey t p c j := by
    intro t p c j
    rw [hks]
    simp [buildTTLIndexKey, buildQueueKey]
  have htc : ∀ t, kv.1 ≠ buildTeamCounterKey t := by
    intro t
    rw [hks]
    simp [buildTTLIndexKey, buildTeamCounterKey]
  have hcc : ∀ c, kv.1 ≠ buildCrawlCounterKey c := by
    intro c
    rw [hks]
    simp [buildTTLIndexKey, buildCrawlCounterKey]
  have hci : ∀ c j, kv.1 ≠ buildCrawlIndexKey c j := by
    intro c j
    rw [hks]
    simp [buildTTLIndexKey, buildCrawlIndexKey]
  simp only [processTTLEntry]
  split
  · rename_i teamId jobId tv
    apply mem_kvClear_of_ne _ _ _ _ hne
    split
    · rename_i cid heq
      split
      · exact mem_kvSet_of_ne _ _ _ _
          (mem_kvClear_of_ne _ _ _
            (mem_kvSet_of_ne _ _ _ _
              (mem_kvClear_of_ne _ _ _ hm (hq _ _ _ _)) (htc _)) (hci _ _)) (hcc _)
      · exact mem_kvSet_of_ne _ _ _ _
          (mem_kvClear_of_ne _ _ _ hm (hq _ _ _ _)) (htc _)
    · exact mem_kvSet_of_ne _ _ _ _
        (mem_kvClear_of_ne _ _ _ hm (hq _ _ _ _)) (htc _)
  · exact mem_kvClear_of_ne _ _ _ hm hne

/-- A non-expired TTL entry survives the processing of any list of expired
entries. -/
theorem mem_processList_of_ttl (now : Int) (l : List (TupleKey × Val)) :
    ∀ (st : Store) (kv : TupleKey × Val), kv ∈ st → isTTLKey kv.1 = true →
      ¬(ttlExpAt kv.1 < now) → (∀ e ∈ l, expiredTTLp now e = true) →
      kv ∈ processList l st := by
  induction l with
  | nil => intro st kv hm _ _ _; exact hm
  | cons e l2 ih =>
    intro st kv hm hk hnx hl
    have hne : kv.1 ≠ e.1 := by
      intro hcon
      have he := hl e (List.mem_cons_self e l2)
      simp only [expiredTTLp, Bool.and_eq_true, decide_eq_true_eq] at he
      rw [← hcon] at he
      exact hnx he.2
    exact ih (processTTLEntry st e) kv
      (mem_processTTLEntry_of_ttl st e kv hm hk hne) hk hnx
      (fun e2 he2 => hl e2 (List.mem_cons_of_mem e he2))

/-- A key absent from the store, and different from every counter key, stays
absent after processing one TTL entry. -/
theorem kvGet_processTTLEntry_preserve_none (st : Store) (e : TupleKey × Val)
    (k : TupleKey) (h : kvGet k st = none)
    (h1 : ∀ t, k ≠ buildTeamCounterKey t) (h2 : ∀ c, k ≠ buildCrawlCounterKey c) :
    kvGet k (processTTLEntry st e) = none := by
  simp only [processTTLEntry]
  split
  · rename_i teamId jobId tv
    apply kvGet_kvClear_none
    split
    · rename_i cid heq
      split
      · unfold counterAdd
        rw [kvGet_kvSet_ne _ _ _ _ (h2 cid)]
        apply kvGet_kvClear_none
        rw [kvGet_kvSet_ne _ _ _ _ (h1 teamId)]
        exact kvGet_kvClear_none _ _ _ h
      · unfold counterAdd
        rw [kvGet_kvSet_ne _ _ _ _ (h1 teamId)]
        exact kvGet_kvClear_none _ _ _ h
    · unfold counterAdd
      rw [kvGet_kvSet_ne _ _ _ _ (h1 teamId)]
      exact kvGet_kvClear_none _ _ _ h
  · exact kvGet_kvClear_none _ _ _ h

/-- A key absent from the store, and different from every counter key, stays
absent after processing a list of TTL entries. -/
theorem kvGet_processList_preserve_none (l : List (TupleKey × Val)) :
    ∀ (st : Store) (k : TupleKey), kvGet k st = none →
      (∀ t, k ≠ buildTeamCounterKey t) → (∀ c, k ≠ buildCrawlCounterKey c) →
      kvGet k (processList l st) = none := by
  induction l with
  | nil => intro st k h _ _; exact h
  | cons e l2 ih =>
    intro st k h h1 h2
    exact ih (processTTLEntry st e) k
      (kvGet_processTTLEntry_preserve_none st e k h h1 h2) h1 h2

/-- Processing an entry clears its own TTL index key. -/
theorem kvGet_processTTLEntry_self (st : Store) (e : TupleKey × Val) :
    kvGet e.1 (processTTLEntry st e) = none := by
  simp only [processTTLEntry]
  split
  · exact kvGet_kvClear_self _ _
  · exact kvGet_kvClear_self _ _

/-- Processing a well-shaped TTL entry clears the queue entry it records. -/
theorem kvGet_processTTLEntry_queueKey (st : Store) (ex : Int) (tx jx : String)
    (tv : TTLValue) :
    kvGet (buildQueueKey tx tv.priority tv.createdAt jx)
      (processTTLEntry st (buildTTLIndexKey ex tx jx, Val.ttlVal tv)) = none := by
  rw [processTTLEntry_ttl_eq]
  apply kvGet_kvClear_none
  have hbase : kvGet (buildQueueKey tx tv.priority tv.createdAt jx)
      (counterAdd (buildTeamCounterKey tx) (-1)
        (kvClear (buildQueueKey tx tv.priority tv.createdAt jx) st)) = none := by
    unfold counterAdd
    rw [kvGet_kvSet_ne _ _ _ _ (by simp [buildQueueKey, buildTeamCounterKey])]
    exact kvGet_kvClear_self _ _
  split
  · rename_i cid heq
    split
    · unfold counterAdd
      rw [kvGet_kvSet_ne _ _ _ _ (by simp [buildQueueKey, buildCrawlCounterKey])]
      exact kvGet_kvClear_none _ _ _ hbase
    · exact hbase
  · exact hbase

/-- Processing a well-shaped TTL entry recording a truthy crawl id clears the
crawl index entry it records. -/
theorem kvGet_processTTLEntry_crawlKey (st : Store) (ex : Int) (tx jx : String)
    (tv : TTLValue) (cid : String) (hcid : tv.crawlId = some cid) (hne : cid ≠ "") :
    kvGet (buildCrawlIndexKey cid jx)
      (processTTLEntry st (buildTTLIndexKey ex tx jx, Val.ttlVal tv)) = none := by
  rw [processTTLEntry_ttl_eq, hcid]
  apply kvGet_kvClear_none
  split
  · rename_i cid2 heq
    injection heq with hc
    subst hc
    rw [if_pos (by simpa using hne)]
    unfold counterAdd
    rw [kvGet_kvSet_ne _ _ _ _
      (by simp [buildCrawlIndexKey, buildCrawlCounterKey, crawlIdxPfx, counterPfx])]
    exact kvGet_kvClear_self _ _
  · rename_i heq
    simp at heq

/-- Effect of processing a well-shaped TTL entry on a team queue counter. -/
theorem teamCounter_processTTLEntry (st : Store) (ex : Int) (tx jx t : String)
    (tv : TTLValue) :
    counterGet (buildTeamCounterKey t)
      (processTTLEntry st (buildTTLIndexKey ex tx jx, Val.ttlVal tv)) =
      counterGet (buildTeamCounterKey t) st - (if tx = t then 1 else 0) := by
  have hcore : ∀ s1 : Store, counterGet (buildTeamCounterKey t)
      (counterAdd (buildTeamCounterKey tx) (-1) s1) =
      counterGet (buildTeamCounterKey t) s1 - (if tx = t then 1 else 0) := by
    intro s1
    by_cases hx : tx = t
    · subst hx
      rw [counterGet_counterAdd_self, if_pos rfl]
      ring
    · rw [counterGet_counterAdd_ne _ _ _ _
        (by simp [buildTeamCounterKey]; exact fun h => hx h.symm)]
      simp [hx]
  rw [processTTLEntry_ttl_eq]
  rw [counterGet_kvClear_ne _ _ _ (by simp [buildTeamCounterKey, buildTTLIndexKey])]
  split
  · rename_i cid heq
    split
    · rw [counterGet_counterAdd_ne _ _ _ _
        (by simp [buildTeamCounterKey, buildCrawlCounterKey, counterTeam, counterCrawl])]
      rw [counterGet_kvClear_ne _ _ _
        (by simp [buildTeamCounterKey, buildCrawlIndexKey, counterPfx, crawlIdxPfx])]
      rw [hcore]
      rw [counterGet_kvClear_ne _ _ _ (by simp [buildTeamCounterKey, buildQueueKey])]
    · rw [hcore]
      rw [counterGet_kvClear_ne _ _ _ (by simp [buildTeamCounterKey, buildQueueKey])]
  · rw [hcore]
    rw [counterGet_kvClear_ne _ _ _ (by simp [buildTeamCounterKey, buildQueueKey])]

/-- Effect of processing a well-shaped TTL entry on a crawl queue counter. -/
theorem crawlCounter_processTTLEntry (st : Store) (ex : Int) (tx jx c : String)
    (tv : TTLValue) :
    counterGet (buildCrawlCounterKey c)
      (processTTLEntry st (buildTTLIndexKey ex tx jx, Val.ttlVal tv)) =
      counterGet (buildCrawlCounterKey c) st -
        (if ttlEntryCrawl (buildTTLIndexKey ex tx jx, Val.ttlVal tv) = some c
         then 1 else 0) := by
  have hbase : counterGet (buildCrawlCounterKey c)
      (counterAdd (buildTeamCounterKey tx) (-1)
        (kvClear (buildQueueKey tx tv.priority tv.createdAt jx) st)) =
      counterGet (buildCrawlCounterKey c) st := by
    rw [counterGet_counterAdd_ne _ _ _ _
      (by simp [buildCrawlCounterKey, buildTeamCounterKey, counterTeam, counterCrawl])]
    exact counterGet_kvClear_ne _ _ _ (by simp [buildCrawlCounterKey, buildQueueKey])
  rw [processTTLEntry_ttl_eq]
  rw [counterGet_kvClear_ne _ _ _ (by simp [buildCrawlCounterKey, buildTTLIndexKey])]
  rcases htv : tv.crawlId with _ | cid
  · simp only [htv, ttlEntryCrawl]
    rw [if_neg (by simp), hbase]
    simp
  · by_cases hcid0 : cid = ""
    · subst hcid0
      simp only [htv, ttlEntryCrawl]
      rw [if_neg (by simp), if_neg (by simp), hbase]
      simp
    · simp only [htv, ttlEntryCrawl]
      have hcond : ((cid != "") = true) := by simpa using hcid0
      rw [if_pos hcond, if_pos hcond]
      by_cases hcc : cid = c
      · subst hcc
        rw [counterGet_counterAdd_self]
        rw [counterGet_kvClear_ne _ _ _
          (by simp [buildCrawlCounterKey, buildCrawlIndexKey, counterPfx, crawlIdxPfx])]
        rw [hbase, if_pos rfl]
        ring
      · rw [counterGet_counterAdd_ne _ _ _ _
          (by simp [buildCrawlCounterKey]; exact fun h => hcc h.symm)]
        rw [counterGet_kvClear_ne _ _ _
          (by simp [buildCrawlCounterKey, buildCrawlIndexKey, counterPfx, crawlIdxPfx])]
        rw [hbase, if_neg (by simpa using hcc)]
        simp

/-- Effect of processing a list of well-shaped TTL entries on a team queue
counter: it decreases by the number of processed entries recorded for the
team. -/
theorem teamCounter_processList (t : String) (l : List (TupleKey × Val)) :
    ∀ st : Store,
      (∀ e ∈ l, ∃ ex tx jx tv, e = (buildTTLIndexKey ex tx jx, Val.ttlVal tv)) →
      counterGet (buildTeamCounterKey t) (processList l st) =
        counterGet (buildTeamCounterKey t) st - (countTeamOf l t : Int) := by
  induction l with
  | nil =>
    intro st _
    simp [processList, countTeamOf]
  | cons e l2 ih =>
    intro st hl
    obtain ⟨ex, tx, jx, tv, he⟩ := hl e (List.mem_cons_self e l2)
    have hstep : processList (e :: l2) st = processList l2 (processTTLEntry st e) := rfl
    rw [hstep, ih (processTTLEntry st e) (fun e2 he2 => hl e2 (List.mem_cons_of_mem e he2))]
    subst he
    rw [teamCounter_processTTLEntry]
    have hc : countTeamOf ((buildTTLIndexKey ex tx jx, Val.ttlVal tv) :: l2) t =
        (if tx = t then 1 else 0) + countTeamOf l2 t := by
      simp only [countTeamOf, List.filter_cons]
      by_cases hx : tx = t
      · subst hx
        simp only [buildTTLIndexKey, ttlKeyTeam]
        simp
        omega
      · simp [buildTTLIndexKey, ttlKeyTeam, hx]
    rw [hc]
    push_cast
    ring

/-- Effect of processing a list of well-shaped TTL entries on a crawl queue
counter: it decreases by the number of processed entries recording the truthy
crawl id. -/
theorem crawlCounter_processList (c : String) (l : List (TupleKey × Val)) :
    ∀ st : Store,
      (∀ e ∈ l, ∃ ex tx jx tv, e = (buildTTLIndexKey ex tx jx, Val.ttlVal tv)) →
      counterGet (buildCrawlCounterKey c) (processList l st) =
        counterGet (buildCrawlCounterKey c) st - (countCrawlOf l c : Int) := by
  induction l with
  | nil =>
    intro st _
    simp [processList, countCrawlOf]
  | cons e l2 ih =>
    intro st hl
    obtain ⟨ex, tx, jx, tv, he⟩ := hl e (List.mem_cons_self e l2)
    have hstep : processList (e :: l2) st = processList l2 (processTTLEntry st e) := rfl
    rw [hstep, ih (processTTLEntry st e) (fun e2 he2 => hl e2 (List.mem_cons_of_mem e he2))]
    subst he
    rw [crawlCounter_processTTLEntry]
    have hc : countCrawlOf ((buildTTLIndexKey ex tx jx, Val.ttlVal tv) :: l2) c =
        (if ttlEntryCrawl (buildTTLIndexKey ex tx jx, Val.ttlVal tv) = some c
         then 1 else 0) + countCrawlOf l2 c := by
      simp only [countCrawlOf, List.filter_cons]
      by_cases hx : ttlEntryCrawl (buildTTLIndexKey ex tx jx, Val.ttlVal tv) = some c
      · simp [hx]
        omega
      · simp [hx]
    rw [hc]
    push_cast
    ring

/-- A value recognised as a TTL payload is a ttlVal. -/
theorem isTTLVal_shape (v : Val) (h : isTTLVal v = true) :
    ∃ tv, v = Val.ttlVal tv := by
  cases v
  case ttlVal tv => exact ⟨tv, rfl⟩
  all_goals simp [isTTLVal] at h

/-- C8: on a well-formed store (well-shaped keys, no duplicate expired TTL
keys, TTL payloads under TTL keys), one invocation of cleanExpiredJobs
processes only the TTL index entries with expires_at strictly below now,
capped at 10 batches of 100: it returns min(number of expired entries, 1000),
leaves every non-expired TTL index entry in place, and — when the expired
entries fit in the cap — deletes, for each expired entry, its TTL index key,
its queue entry, and (when a truthy crawl id is recorded) its crawl index
entry, and decrements each team queue counter and each crawl queue counter
by the number of expired entries recorded for that team or truthy crawl id. -/
theorem spec_c8_clean_expired (now : Int) (s : Store)
    (hwf : ∀ kv ∈ s, wfKey kv.1 = true)
    (hnd : ((expiredTTL now s).map Prod.fst).Nodup)
    (hvals : ∀ kv ∈ s, isTTLKey kv.1 = true → isTTLVal kv.2 = true) :
    (cleanExpiredJobs now s).1 = min (expiredTTL now s).length 1000 ∧
    (∀ kv ∈ s, isTTLKey kv.1 = true → ¬ttlExpAt kv.1 < now →
      kv ∈ (cleanExpiredJobs now s).2) ∧
    ((expiredTTL now s).length ≤ 1000 →
      (∀ kv ∈ expiredTTL now s, ∀ (ex : Int) (tx jx : String) (tv : TTLValue),
        kv = (buildTTLIndexKey ex tx jx, Val.ttlVal tv) →
        kvGet kv.1 (cleanExpiredJobs now s).2 = none ∧
        kvGet (buildQueueKey tx tv.priority tv.createdAt jx)
          (cleanExpiredJobs now s).2 = none ∧
        (∀ cid, tv.crawlId = some cid → cid ≠ "" →
          kvGet (buildCrawlIndexKey cid jx) (cleanExpiredJobs now s).2 = none)) ∧
      (∀ t, getTeamQueueCount (cleanExpiredJobs now s).2 t =
        getTeamQueueCount s t - (countTeamOf (expiredTTL now s) t : Int)) ∧
      (∀ c, getCrawlQueueCount (cleanExpiredJobs now s).2 c =
        getCrawlQueueCount s c - (countCrawlOf (expiredTTL now s) c : Int))) := by
  have hmain : cleanExpiredJobs now s =
      (min (expiredTTL now s).length 1000,
        processList ((expiredTTL now s).take 1000) s) := by
    have hloop := cleanLoop_spec now 10 0 s hwf hnd
    unfold cleanExpiredJobs
    rw [hloop]
    norm_num
  refine ⟨by simp [hmain], ?_, ?_⟩
  · intro kv hm hk hnx
    simp only [hmain]
    apply mem_processList_of_ttl now _ s kv hm hk hnx
    intro e he
    have he2 : e ∈ expiredTTL now s := List.take_subset _ _ he
    simp only [expiredTTL] at he2
    exact List.of_mem_filter he2
  · intro hlen
    have htake : (expiredTTL now s).take 1000 = expiredTTL now s :=
      List.take_of_length_le hlen
    have hshape : ∀ e ∈ expiredTTL now s,
        ∃ ex tx jx tv, e = (buildTTLIndexKey ex tx jx, Val.ttlVal tv) := by
      intro e he
      simp only [expiredTTL] at he
      have hes : e ∈ s := List.mem_of_mem_filter he
      have hp : expiredTTLp now e = true := List.of_mem_filter he
      have hk : isTTLKey e.1 = true := by
        simp only [expiredTTLp, Bool.and_eq_true] at hp
        exact hp.1
      obtain ⟨ex, tx, jx, hks⟩ := isTTLKey_shape e.1 hk
      obtain ⟨tv, hv⟩ := isTTLVal_shape e.2 (hvals e hes hk)
      exact ⟨ex, tx, jx, tv, Prod.ext hks hv⟩
    refine ⟨?_, ?_, ?_⟩
    · intro kv hkv ex tx jx tv hdecomp
      obtain ⟨l1, l2, hE⟩ := List.append_of_mem hkv
      have hPL : processList (expiredTTL now s) s =
          processList l2 (processTTLEntry (processList l1 s) kv) := by
        rw [hE]
        unfold processList
        rw [List.foldl_append, List.foldl_cons]
      have hctr : ∀ k : TupleKey, (∀ t2, k ≠ buildTeamCounterKey t2) →
          (∀ c2, k ≠ buildCrawlCounterKey c2) →
          kvGet k (processTTLEntry (processList l1 s) kv) = none →
          kvGet k (cleanExpiredJobs now s).2 = none := by
        intro k h1 h2 hmid
        simp only [hmain]
        rw [htake, hPL]
        exact kvGet_processList_preserve_none l2 _ k hmid h1 h2
      refine ⟨?_, ?_, ?_⟩
      · apply hctr
        · intro t2
          rw [hdecomp]
          simp [buildTTLIndexKey, buildTeamCounterKey]
        · intro c2
          rw [hdecomp]
          simp [buildTTLIndexKey, buildCrawlCounterKey]
        · exact kvGet_processTTLEntry_self _ kv
      · apply hctr
        · intro t2
          simp [buildQueueKey, buildTeamCounterKey]
        · intro c2
          simp [buildQueueKey, buildCrawlCounterKey]
        · rw [hdecomp]
          exact kvGet_processTTLEntry_queueKey _ ex tx jx tv
      · intro cid hcid hne
        apply hctr
        · intro t2
          simp [buildCrawlIndexKey, buildTeamCounterKey, crawlIdxPfx, counterPfx, counterTeam]
        · intro c2
          simp [buildCrawlIndexKey, buildCrawlCounterKey, crawlIdxPfx, counterPfx, counterCrawl]
        · rw [hdecomp]
          exact kvGet_processTTLEntry_crawlKey _ ex tx jx tv cid hcid hne
    · intro t
      simp only [hmain, getTeamQueueCount_counterGet]
      rw [htake, teamCounter_processList t (expiredTTL now s) s hshape]
    · intro c
      simp only [hmain, getCrawlQueueCount_counterGet]
      rw [htake, crawlCounter_processList c (expiredTTL now s) s hshape]

/-- Witness for C8: on a concrete store holding two expired TTL entries (one
with a truthy crawl id) and one live one, the hypotheses hold and the sweep
reports two removals. -/
theorem spec_c8_clean_expired_witness :
    (∀ kv ∈ storeCleanWitness, wfKey kv.1 = true) ∧
    ((expiredTTL 1000 storeCleanWitness).map Prod.fst).Nodup ∧
    (∀ kv ∈ storeCleanWitness, isTTLKey kv.1 = true → isTTLVal kv.2 = true) ∧
    (cleanExpiredJobs 1000 storeCleanWitness).1 =
      min (expiredTTL 1000 storeCleanWitness).length 1000 :=
  ⟨by decide, by decide, by decide,
    (spec_c8_clean_expired 1000 storeCleanWitness (by decide) (by decide)
      (by decide)).1⟩
